import Mathlib

/-!
Shallow embedding of the eqWAlizer integration layer of the
erlang-language-platform repository: the diagnostics aggregator
(`EqwalizerDiagnostics::combine`), the IPC driver loops (`do_typecheck`,
`get_module_diagnostics`), the byte-streaming discipline
(`IpcHandle::send_bytes`), executable discovery (`EqwalizerExe::ensure_exe`,
`Eqwalizer::typecheck`), and the AST preprocessor
(`crates/eqwalizer/src/ast/preprocess.rs`), together with theorems about
their behaviour.

Rust `FxHashMap`s are modelled extensionally as partial maps
(`String → Option V`); `HashMap::extend` inserts every entry of the second
map, overriding entries of the first at shared keys.  Machine integers are
modelled as `Nat`/`Int` (no overflow is relevant to any statement below).
Fallible operations are modelled with `Option`/`Except`; a Rust `panic!` or
`unwrap` failure is modelled as `none`.
-/

namespace Elp

/-- Source position.  Modelled from the spec: positions are opaque payload
data carried through every node; no operation below inspects them. -/
abbrev Pos := Nat

/-- `(name, arity)` pair identifying a function or type within a module
(`elp_types_db::eqwalizer::Id`). -/
structure Id where
  name : String
  arity : Nat
deriving DecidableEq, Repr

/-- An `Id` qualified with a module name (`elp_types_db::eqwalizer::RemoteId`). -/
structure RemoteId where
  module : String
  name : String
  arity : Nat
deriving DecidableEq, Repr

/-- Modelled from the spec: the `From<RemoteId> for Id` conversion used by the
preprocessor's allow-list checks drops the module qualifier and keeps
`(name, arity)` (the `types_db` module defining it is not among the shown
sources; `preprocess.rs` uses it as `rcall.id.into()`). -/
def RemoteId.toId (r : RemoteId) : Id := ⟨r.name, r.arity⟩

/-- Modelled from the spec: a single eqWAlizer diagnostic is opaque payload
data for the aggregator; only map structure matters to `combine`. -/
structure EqwalizerDiagnostic where
  code : Nat
deriving DecidableEq, Repr

/-- Modelled from the spec: `elp_types_db::eqwalizer::types::Type` is opaque
payload data for the aggregator. -/
structure Ty where
  tag : Nat
deriving DecidableEq, Repr

/-- An `FxHashMap<String, V>` modelled extensionally. -/
def HMap (V : Type) := String → Option V

/-- The empty map (`FxHashMap::default`). -/
def HMap.empty {V : Type} : HMap V := fun _ => none

/-- `HashMap::extend`: every entry of `other` is inserted into `m`,
replacing the entry at a shared key; keys only in `m` are kept. -/
def HMap.extend {V : Type} (m other : HMap V) : HMap V := fun k =>
  match other k with
  | some v => some v
  | none => m k

/-- A singleton map, used to build concrete instances. -/
def HMap.single {V : Type} (k : String) (v : V) : HMap V := fun k' =>
  if k' = k then some v else none

/-- `EqwalizerDiagnostics` from `crates/eqwalizer/src/lib.rs`: either a pair
of per-module maps (errors and inferred type info), or a terminal
"no AST for module" marker, or a terminal error string. -/
inductive EqwalizerDiagnostics where
  | Diagnostics (errors : HMap (List EqwalizerDiagnostic))
      (type_info : HMap (List (Pos × Ty)))
  | NoAst (module : String)
  | Error (msg : String)

/-- `EqwalizerDiagnostics::default()`: empty `Diagnostics`. -/
def EqwalizerDiagnostics.default' : EqwalizerDiagnostics :=
  EqwalizerDiagnostics.Diagnostics HMap.empty HMap.empty

/-- `EqwalizerDiagnostics::combine` (lib.rs lines 136-166), translated
match-arm by match-arm. -/
def EqwalizerDiagnostics.combine :
    EqwalizerDiagnostics → EqwalizerDiagnostics → EqwalizerDiagnostics
  | EqwalizerDiagnostics.NoAst self_module, other =>
    match other with
    | EqwalizerDiagnostics.NoAst other_module =>
      if other_module > self_module then EqwalizerDiagnostics.NoAst self_module
      else EqwalizerDiagnostics.NoAst other_module
    | _ => EqwalizerDiagnostics.NoAst self_module
  | EqwalizerDiagnostics.Error e, _ => EqwalizerDiagnostics.Error e
  | EqwalizerDiagnostics.Diagnostics errors type_info, other =>
    match other with
    | EqwalizerDiagnostics.Diagnostics other_errors other_type_info =>
      EqwalizerDiagnostics.Diagnostics (errors.extend other_errors)
        (type_info.extend other_type_info)
    | EqwalizerDiagnostics.Error e => EqwalizerDiagnostics.Error e
    | EqwalizerDiagnostics.NoAst m => EqwalizerDiagnostics.NoAst m

/-- `ipc::EqWAlizerASTFormat`. -/
inductive EqWAlizerASTFormat where
  | ConvertedForms
  | TransitiveStub
deriving DecidableEq, Repr

/-- `ipc::MsgFromEqWAlizer`: control messages received from the external
typechecker process. -/
inductive MsgFromEqWAlizer where
  | EnteringModule (module : String)
  | GetAstBytes (module : String) (format : EqWAlizerASTFormat)
  | EqwalizingStart (module : String)
  | EqwalizingDone (module : String)
  | Dependencies (modules : List String)
  | Done (diagnostics : HMap (List EqwalizerDiagnostic))
      (type_info : HMap (List (Pos × Ty)))

/-- `ipc::MsgToEqWAlizer`: control messages sent to the external process. -/
inductive MsgToEqWAlizer where
  | ELPEnteringModule
  | ELPExitingModule
  | GetAstBytesReply (ast_bytes_len : Nat)
  | CannotCompleteRequest
deriving DecidableEq, Repr

/-- `ast::Error`, the per-module derivation error taxonomy.  Modelled from
the spec (§7): the enum itself lives in `ast/mod.rs` which is not among the
shown sources; the variants are those constructed in `ast/db.rs` and matched
in `lib.rs` (`ModuleNotFound`, `ParseError`) plus the other stage errors the
spec lists. -/
inductive AstError where
  | ModuleNotFound (module : String)
  | ParseError
  | BEAMNotFound (path : String)
  | TypeConversionError (msg : String)
  | ContractivityError (msg : String)
  | VarianceCheckError (msg : String)
  | TransitiveCheckError (msg : String)
deriving DecidableEq, Repr

/-- Modelled from the spec: `Error::to_string()` (the `Display` impl is in
`ast/mod.rs`, not among the shown sources) renders each variant with its
structured context; only injectivity-by-variant matters below. -/
def AstError.message : AstError → String
  | AstError.ModuleNotFound m => "module not found: " ++ m
  | AstError.ParseError => "parse error"
  | AstError.BEAMNotFound p => "BEAM not found: " ++ p
  | AstError.TypeConversionError m => "type conversion error: " ++ m
  | AstError.ContractivityError m => "contractivity error: " ++ m
  | AstError.VarianceCheckError m => "variance check error: " ++ m
  | AstError.TransitiveCheckError m => "transitive check error: " ++ m

/-- The top-level driver loop of `do_typecheck` (lib.rs lines 311-340),
as a function of the incoming control-message stream.  `module_diagnostics`
stands for the salsa query servicing one entered module.  Running out of
messages models a blocking receive that fails; sends cannot fail in this
model.  On `EnteringModule` the delta is merged via `combine` and the loop
short-circuits if the total became terminal; on `Done` the loop returns the
accumulated diagnostics (the payload of the `Done` message is ignored by the
`Done { .. }` pattern); any other message is logged and skipped. -/
def do_typecheck_loop (module_diagnostics : String → EqwalizerDiagnostics) :
    List MsgFromEqWAlizer → EqwalizerDiagnostics → Option EqwalizerDiagnostics
  | [], _ => none
  | MsgFromEqWAlizer.EnteringModule module :: rest, diagnostics =>
    let combined := diagnostics.combine (module_diagnostics module)
    match combined with
    | EqwalizerDiagnostics.Error e => some (EqwalizerDiagnostics.Error e)
    | EqwalizerDiagnostics.NoAst m => some (EqwalizerDiagnostics.NoAst m)
    | EqwalizerDiagnostics.Diagnostics e t =>
      do_typecheck_loop module_diagnostics rest
        (EqwalizerDiagnostics.Diagnostics e t)
  | MsgFromEqWAlizer.Done _ _ :: _, diagnostics => some diagnostics
  | _ :: rest, diagnostics => do_typecheck_loop module_diagnostics rest diagnostics

/-- One observable item sent over the IPC channel by the per-module
sub-loop: a control message, a blocking wait for the acknowledging newline,
one `write_all` of a chunk of raw bytes, or a `flush` of the write channel. -/
inductive SentItem where
  | ctrl (m : MsgToEqWAlizer)
  | awaitNewline
  | chunkWrite (chunk : List Nat)
  | flushBytes
deriving DecidableEq, Repr

/-- `slice::chunks` with chunk size `m + 1` (the `+ 1` keeps the size
positive, as `chunks` requires): splits a list into consecutive runs of
exactly `m + 1` elements, the last run possibly shorter; the empty list
yields no chunks. -/
def chunksPos {α : Type} (m : Nat) : List α → List (List α)
  | [] => []
  | x :: xs => (x :: xs).take (m + 1) :: chunksPos m ((x :: xs).drop (m + 1))
termination_by l => l.length
decreasing_by simp; omega

/-- `IpcHandle::send_bytes` (ipc.rs lines 166-179) as its sequence of write
events: the payload is written in chunks of `65_536` bytes via `write_all`,
then the writer is flushed once, after the loop over chunks. -/
def send_bytes_events (msg : List Nat) : List SentItem :=
  (chunksPos 65535 msg).map SentItem.chunkWrite ++ [SentItem.flushBytes]

/-- The per-module sub-loop of `get_module_diagnostics` (lib.rs lines
380-477), as a function of the incoming control-message stream, accumulating
the items it sends.  `ast_bytes` stands for the
`converted_ast_bytes`/`transitive_stub_bytes` queries selected by `format`.
On a successful `GetAstBytes` the driver replies with the byte length, waits
for the acknowledging newline, streams the bytes and continues; on
`ModuleNotFound` it replies with length `0` and continues; on `ParseError`
it replies `CannotCompleteRequest` and returns `NoAst`; on any other
derivation error it replies `CannotCompleteRequest` and returns `Error` with
the error's message.  `Done` returns the payload as a `Diagnostics` value;
all other messages leave the send stream unchanged. -/
def get_module_diagnostics_loop
    (ast_bytes : String → EqWAlizerASTFormat → Except AstError (List Nat)) :
    List MsgFromEqWAlizer → List SentItem →
    Option (List SentItem × EqwalizerDiagnostics)
  | [], _ => none
  | MsgFromEqWAlizer.GetAstBytes module format :: rest, sent =>
    match ast_bytes module format with
    | Except.ok bytes =>
      get_module_diagnostics_loop ast_bytes rest
        (sent ++ [SentItem.ctrl (MsgToEqWAlizer.GetAstBytesReply bytes.length),
          SentItem.awaitNewline] ++ send_bytes_events bytes)
    | Except.error (AstError.ModuleNotFound _) =>
      get_module_diagnostics_loop ast_bytes rest
        (sent ++ [SentItem.ctrl (MsgToEqWAlizer.GetAstBytesReply 0),
          SentItem.awaitNewline])
    | Except.error AstError.ParseError =>
      some (sent ++ [SentItem.ctrl MsgToEqWAlizer.CannotCompleteRequest],
        EqwalizerDiagnostics.NoAst module)
    | Except.error err =>
      some (sent ++ [SentItem.ctrl MsgToEqWAlizer.CannotCompleteRequest],
        EqwalizerDiagnostics.Error err.message)
  | MsgFromEqWAlizer.Done diagnostics type_info :: _, sent =>
    some (sent, EqwalizerDiagnostics.Diagnostics diagnostics type_info)
  | _ :: rest, sent => get_module_diagnostics_loop ast_bytes rest sent

/-- Outcome of `EqwalizerExe::ensure_exe` (lib.rs lines 210-260): `Panic`
models the `panic!` on an unknown executable extension, `NoExe` the `None`
returned when neither environment variable is set, `Exe` a located command
with its arguments. -/
inductive ExeResult where
  | Panic (msg : String)
  | NoExe
  | Exe (cmd : String) (args : List String)
deriving DecidableEq, Repr

/-- `Path::extension().unwrap_or_default()` on a path string: the part of
the final component after the last dot, or the empty string when there is
no dot. -/
def path_extension (p : String) : String :=
  match p.splitOn "." with
  | [] => ""
  | [_] => ""
  | parts => parts.reverse.headD ""

/-- The dispatch on the executable extension at the end of `ensure_exe`:
`"jar"` invokes `java -Xss20M -jar path`, the empty extension invokes the
path directly, anything else panics. -/
def exe_dispatch (path ext : String) : ExeResult :=
  if ext = "jar" then ExeResult.Exe "java" ["-Xss20M", "-jar", path]
  else if ext = "" then ExeResult.Exe path []
  else ExeResult.Panic ("Unknown eqwalizer executable " ++ path)

/-- `EqwalizerExe::ensure_exe` as a function of the two environment
variables `ELP_EQWALIZER_PATH` and `ELP_EQWALIZER_EXT`.  Modelled from the
spec for the embedded-resource branch: the temp-file materialisation is
summarised by an opaque temp path, keeping only the extension dispatch.
When neither variable is set the function returns `NoExe` (`return None` in
the source). -/
def ensure_exe (elp_eqwalizer_path elp_eqwalizer_ext : Option String) :
    ExeResult :=
  match elp_eqwalizer_path with
  | some path => exe_dispatch path (path_extension path)
  | none =>
    match elp_eqwalizer_ext with
    | some extension => exe_dispatch "eqwalizer-temp-exe" extension
    | none => ExeResult.NoExe

/-- `Eqwalizer::typecheck` (lib.rs lines 275-296) given the resolved
executable and the outcome `run` of `do_typecheck`: when no command could be
constructed (`self.cmd()` returned `None`) it returns the empty
`Diagnostics` value without running anything; otherwise it returns the
loop's result, wrapping a process-level error into
`EqwalizerDiagnostics::Error`.  A `Panic` during executable discovery
aborts (modelled as `none`). -/
def typecheck (exe : ExeResult) (run : Except String EqwalizerDiagnostics) :
    Option EqwalizerDiagnostics :=
  match exe with
  | ExeResult.Panic _ => none
  | ExeResult.NoExe =>
    some (EqwalizerDiagnostics.Diagnostics HMap.empty HMap.empty)
  | ExeResult.Exe _ _ =>
    match run with
    | Except.ok diags => some diags
    | Except.error err => some (EqwalizerDiagnostics.Error err)

/-- The allow-list `PREDICATES` of `preprocess.rs`: the arity-1 and arity-2/3
type-test built-ins whose references the preprocessor eta-expands.  The Rust
`FxHashSet` is modelled as a list queried by membership. -/
def PREDICATES : List Id :=
  [⟨"is_atom", 1⟩, ⟨"is_binary", 1⟩, ⟨"is_bitstring", 1⟩, ⟨"is_boolean", 1⟩,
   ⟨"is_float", 1⟩, ⟨"is_function", 1⟩, ⟨"is_integer", 1⟩, ⟨"is_list", 1⟩,
   ⟨"is_number", 1⟩, ⟨"is_pid", 1⟩, ⟨"is_port", 1⟩, ⟨"is_reference", 1⟩,
   ⟨"is_map", 1⟩, ⟨"is_tuple", 1⟩, ⟨"is_record", 2⟩, ⟨"is_function", 2⟩,
   ⟨"is_record", 3⟩]

/-- The allow-list `BINOP` of `preprocess.rs`: binary operators that may
appear in a test expression. -/
def BINOP : List String :=
  ["/", "*", "-", "+", "div", "rem", "band", "bor", "bxor", "bsl", "bsr",
   "or", "xor", "and", ">=", ">", "=<", "<", "/=", "=/=", "==", "=:=",
   "andalso", "orelse"]

/-- The allow-list `UNOP` of `preprocess.rs`: unary operators that may
appear in a test expression. -/
def UNOP : List String := ["bnot", "+", "-", "not"]

/-- Guard test expressions (`elp_types_db::eqwalizer::guard::Test`).
Modelled from the spec: `guard.rs` is not among the shown sources; the
constructors and their fields are those constructed by `as_test` and
`eta_expand_unary_predicate` in `preprocess.rs` (variable, atom literal,
number literal, allow-listed call, tuple, unary and binary operator). -/
inductive Test where
  | TestVar (location : Pos) (v : String)
  | TestAtom (location : Pos) (s : String)
  | TestNumber (location : Pos) (lit : Option Int)
  | TestCall (location : Pos) (id : Id) (args : List Test)
  | TestTuple (location : Pos) (elems : List Test)
  | TestUnOp (location : Pos) (op : String) (arg : Test)
  | TestBinOp (location : Pos) (op : String) (arg_1 : Test) (arg_2 : Test)

/-- Patterns (`elp_types_db::eqwalizer::pat::Pat`).  Modelled from the spec:
`pat.rs` is not among the shown sources; the preprocessor only ever
constructs `PatVar` and otherwise carries patterns through unchanged, so
patterns are modelled as inert data with a variable and a wildcard form. -/
inductive Pat where
  | PatVar (location : Pos) (n : String)
  | PatWild (location : Pos)
deriving DecidableEq, Repr

/-- A guard: a conjunction of tests (`guard::Guard`).  Modelled from the
spec alongside `Test`. -/
structure Guard where
  tests : List Test

/-- Binary segment specifier.  Modelled from the spec: opaque payload data
(`binary_specifier.rs` is not among the shown sources). -/
abbrev Specifier := Nat

/-! The expression AST of `elp_types_db::eqwalizer::expr::Expr`, with its
payload structs (`Var`, `Tuple`, `Lambda`, ...) flattened into constructor
fields.  `Body`, `Clause`, `Qualifier`, `BinaryElem` and the record-field
forms are the mutually defined node types of `expr.rs`. -/
mutual
inductive Expr where
  | Var (location : Pos) (n : String)
  | AtomLit (location : Pos) (s : String)
  | IntLit (location : Pos) (value : Option Int)
  | FloatLit (location : Pos)
  | Block (location : Pos) (body : Body)
  | Match (location : Pos) (pat : Pat) (expr : Expr)
  | Tuple (location : Pos) (elems : List Expr)
  | StringLit (location : Pos) (empty : Bool)
  | NilLit (location : Pos)
  | Cons (location : Pos) (h : Expr) (t : Expr)
  | Case (location : Pos) (expr : Expr) (clauses : List Clause)
  | If (location : Pos) (clauses : List Clause)
  | LocalCall (location : Pos) (id : Id) (args : List Expr)
  | DynCall (location : Pos) (f : Expr) (args : List Expr)
  | RemoteCall (location : Pos) (id : RemoteId) (args : List Expr)
  | LocalFun (location : Pos) (id : Id)
  | RemoteFun (location : Pos) (id : RemoteId)
  | DynRemoteFun (location : Pos) (module : Expr) (name : Expr)
  | DynRemoteFunArity (location : Pos) (module : Expr) (name : Expr)
      (arity : Expr)
  | Lambda (location : Pos) (clauses : List Clause) (name : Option String)
  | UnOp (location : Pos) (op : String) (arg : Expr)
  | BinOp (location : Pos) (op : String) (arg_1 : Expr) (arg_2 : Expr)
  | LComprehension (location : Pos) (template : Expr)
      (qualifiers : List Qualifier)
  | BComprehension (location : Pos) (template : Expr)
      (qualifiers : List Qualifier)
  | MComprehension (location : Pos) (k_template : Expr) (v_template : Expr)
      (qualifiers : List Qualifier)
  | Binary (location : Pos) (elems : List BinaryElem)
  | Catch (location : Pos) (expr : Expr)
  | TryCatchExpr (location : Pos) (try_body : Body)
      (catch_clauses : List Clause) (after_body : Option Body)
  | TryOfCatchExpr (location : Pos) (try_body : Body)
      (try_clauses : List Clause) (catch_clauses : List Clause)
      (after_body : Option Body)
  | Receive (location : Pos) (clauses : List Clause)
  | ReceiveWithTimeout (location : Pos) (clauses : List Clause)
      (timeout : Expr) (timeout_body : Body)
  | RecordCreate (location : Pos) (rec_name : String)
      (fields : List RecordField)
  | RecordUpdate (location : Pos) (expr : Expr) (rec_name : String)
      (fields : List RecordFieldNamed)
  | RecordSelect (location : Pos) (expr : Expr) (rec_name : String)
      (field_name : String)
  | RecordIndex (location : Pos) (rec_name : String) (field_name : String)
  | MapCreate (location : Pos) (kvs : List (Expr × Expr))
  | MapUpdate (location : Pos) (map : Expr) (kvs : List (Expr × Expr))
  | Maybe (location : Pos) (body : Body)
  | MaybeElse (location : Pos) (body : Body) (else_clauses : List Clause)
  | MaybeMatch (location : Pos) (pat : Pat) (arg : Expr)

inductive Body where
  | mk (exprs : List Expr)

inductive Clause where
  | mk (location : Pos) (pats : List Pat) (guards : List Guard) (body : Body)

inductive Qualifier where
  | LGenerate (pat : Pat) (expr : Expr)
  | BGenerate (pat : Pat) (expr : Expr)
  | MGenerate (k_pat : Pat) (v_pat : Pat) (expr : Expr)
  | Filter (expr : Expr)

inductive BinaryElem where
  | mk (location : Pos) (expr : Expr) (size : Option Expr)
      (specifier : Specifier)

inductive RecordField where
  | RecordFieldNamed (name : String) (value : Expr)
  | RecordFieldGen (value : Expr)

inductive RecordFieldNamed where
  | mk (name : String) (value : Expr)
end

/-- `Expr::atom_true` from `expr.rs`. -/
def Expr.atom_true (location : Pos) : Expr := Expr.AtomLit location "true"

/-- `Expr::atom_false` from `expr.rs`. -/
def Expr.atom_false (location : Pos) : Expr := Expr.AtomLit location "false"

/-! `as_test` and `as_tests` from `preprocess.rs`: reduce an expression to a
guard test when it is a variable, an atom or integer literal, a call to an
allow-listed predicate with test-reducible arguments, a tuple of
test-reducible elements, or an allow-listed unary/binary operator over
test-reducible operands; `none` otherwise. -/
mutual
def as_test : Expr → Option Test
  | Expr.Var loc n => some (Test.TestVar loc n)
  | Expr.AtomLit loc s => some (Test.TestAtom loc s)
  | Expr.IntLit loc v => some (Test.TestNumber loc v)
  | Expr.RemoteCall loc id args =>
    if id.toId ∈ PREDICATES then
      match as_tests args with
      | some ts => some (Test.TestCall loc id.toId ts)
      | none => none
    else none
  | Expr.Tuple loc elems =>
    match as_tests elems with
    | some ts => some (Test.TestTuple loc ts)
    | none => none
  | Expr.UnOp loc op arg =>
    if op ∈ UNOP then
      match as_test arg with
      | some t => some (Test.TestUnOp loc op t)
      | none => none
    else none
  | Expr.BinOp loc op arg_1 arg_2 =>
    if op ∈ BINOP then
      match as_test arg_1 with
      | some t1 =>
        match as_test arg_2 with
        | some t2 => some (Test.TestBinOp loc op t1 t2)
        | none => none
      | none => none
    else none
  | _ => none

def as_tests : List Expr → Option (List Test)
  | [] => some []
  | e :: es =>
    match as_test e with
    | some t =>
      match as_tests es with
      | some ts => some (t :: ts)
      | none => none
    | none => none
end

/-- `Preprocessor::fresh_var`: the monotone synthetic variable supply
`$pp0`, `$pp1`, ...; the state is the `var` counter. -/
def fresh_var (var : Nat) : String := "$pp" ++ toString var

/-- `Preprocessor::eta_expand_unary_predicate`: builds the two-clause lambda
`fun (V) when name(V) -> true; (V) -> false end` for a fresh variable `V`,
consuming one fresh-variable index.  (The Rust function returns the
`Lambda` struct; the caller wraps it in `Expr::Lambda`, which is done here
directly.) -/
def eta_expand_unary_predicate (st : Nat) (location : Pos) (name : String) :
    Expr × Nat :=
  let var_name := fresh_var st
  let test_call := Test.TestCall location ⟨name, 1⟩
    [Test.TestVar location var_name]
  let clause_pos := Clause.mk location [Pat.PatVar location var_name]
    [⟨[test_call]⟩] (Body.mk [Expr.atom_true location])
  let clause_neg := Clause.mk location [Pat.PatVar location var_name] []
    (Body.mk [Expr.atom_false location])
  (Expr.Lambda location [clause_pos, clause_neg] none, st + 1)

/-- `Preprocessor::preprocess_lists_partition_arg_fun`: rewrites the first
argument of a `lists:partition/2` call.  A reference to an allow-listed
unary predicate is eta-expanded; a single-clause lambda with a single
pattern whose body is a single test-reducible expression becomes a
two-clause lambda whose first clause keeps the pattern, guards on the test
and returns `true`, and whose second clause binds a fresh variable and
returns `false`; anything else is returned unchanged. -/
def preprocess_lists_partition_arg_fun (st : Nat) (location : Pos) :
    Expr → Expr × Nat
  | Expr.RemoteFun loc id =>
    if id.toId ∈ PREDICATES ∧ id.arity = 1 then
      eta_expand_unary_predicate st location id.name
    else (Expr.RemoteFun loc id, st)
  | Expr.Lambda lloc clauses lname =>
    match clauses with
    | [Clause.mk cloc pats guards (Body.mk exprs)] =>
      match exprs, pats with
      | [body], [pat] =>
        match as_test body with
        | some test =>
          (Expr.Lambda lloc
            [Clause.mk cloc [pat] [⟨[test]⟩] (Body.mk [Expr.atom_true cloc]),
             Clause.mk cloc [Pat.PatVar cloc (fresh_var st)] []
               (Body.mk [Expr.atom_false cloc])]
            lname, st + 1)
        | none =>
          (Expr.Lambda lloc [Clause.mk cloc pats guards (Body.mk exprs)]
            lname, st)
      | _, _ =>
        (Expr.Lambda lloc [Clause.mk cloc pats guards (Body.mk exprs)]
          lname, st)
    | _ => (Expr.Lambda lloc clauses lname, st)
  | e => (e, st)

/-! `Transformer::transform_expr` for the `Preprocessor`, together with the
default structural walk over every other node.  The special arm intercepts
`lists:partition/2` calls: with exactly two arguments it rewrites the first
via `preprocess_lists_partition_arg_fun` and does not recurse into either
argument; with any other argument count the `args.try_into().unwrap()` in
the source panics, modelled as `none`.  The walk is modelled from the spec
(`transformer.rs` is not among the shown sources): it rebuilds each node
with every contained expression transformed left-to-right, threading the
fresh-variable counter, and leaves patterns and guards unchanged. -/
mutual
def transform_expr : Expr → Nat → Option (Expr × Nat)
  | Expr.RemoteCall location id args, st =>
    if id.module = "lists" ∧ id.name = "partition" ∧ id.arity = 2 then
      match args with
      | [arg_fun, arg_list] =>
        match preprocess_lists_partition_arg_fun st location arg_fun with
        | (arg_trans, st') =>
          some (Expr.RemoteCall location ⟨"lists", "partition", 2⟩
            [arg_trans, arg_list], st')
      | _ => none
    else
      match transform_exprs args st with
      | some (args', st') => some (Expr.RemoteCall location id args', st')
      | none => none
  | Expr.Var location n, st => some (Expr.Var location n, st)
  | Expr.AtomLit location s, st => some (Expr.AtomLit location s, st)
  | Expr.IntLit location v, st => some (Expr.IntLit location v, st)
  | Expr.FloatLit location, st => some (Expr.FloatLit location, st)
  | Expr.Block location body, st =>
    match transform_body body st with
    | some (body', st') => some (Expr.Block location body', st')
    | none => none
  | Expr.Match location pat expr, st =>
    match transform_expr expr st with
    | some (expr', st') => some (Expr.Match location pat expr', st')
    | none => none
  | Expr.Tuple location elems, st =>
    match transform_exprs elems st with
    | some (elems', st') => some (Expr.Tuple location elems', st')
    | none => none
  | Expr.StringLit location empty, st =>
    some (Expr.StringLit location empty, st)
  | Expr.NilLit location, st => some (Expr.NilLit location, st)
  | Expr.Cons location h t, st =>
    match transform_expr h st with
    | some (h', st1) =>
      match transform_expr t st1 with
      | some (t', st2) => some (Expr.Cons location h' t', st2)
      | none => none
    | none => none
  | Expr.Case location expr clauses, st =>
    match transform_expr expr st with
    | some (expr', st1) =>
      match transform_clauses clauses st1 with
      | some (clauses', st2) => some (Expr.Case location expr' clauses', st2)
      | none => none
    | none => none
  | Expr.If location clauses, st =>
    match transform_clauses clauses st with
    | some (clauses', st') => some (Expr.If location clauses', st')
    | none => none
  | Expr.LocalCall location id args, st =>
    match transform_exprs args st with
    | some (args', st') => some (Expr.LocalCall location id args', st')
    | none => none
  | Expr.DynCall location f args, st =>
    match transform_expr f st with
    | some (f', st1) =>
      match transform_exprs args st1 with
      | some (args', st2) => some (Expr.DynCall location f' args', st2)
      | none => none
    | none => none
  | Expr.LocalFun location id, st => some (Expr.LocalFun location id, st)
  | Expr.RemoteFun location id, st => some (Expr.RemoteFun location id, st)
  | Expr.DynRemoteFun location module name, st =>
    match transform_expr module st with
    | some (module', st1) =>
      match transform_expr name st1 with
      | some (name', st2) =>
        some (Expr.DynRemoteFun location module' name', st2)
      | none => none
    | none => none
  | Expr.DynRemoteFunArity location module name arity, st =>
    match transform_expr module st with
    | some (module', st1) =>
      match transform_expr name st1 with
      | some (name', st2) =>
        match transform_expr arity st2 with
        | some (arity', st3) =>
          some (Expr.DynRemoteFunArity location module' name' arity', st3)
        | none => none
      | none => none
    | none => none
  | Expr.Lambda location clauses name, st =>
    match transform_clauses clauses st with
    | some (clauses', st') => some (Expr.Lambda location clauses' name, st')
    | none => none
  | Expr.UnOp location op arg, st =>
    match transform_expr arg st with
    | some (arg', st') => some (Expr.UnOp location op arg', st')
    | none => none
  | Expr.BinOp location op arg_1 arg_2, st =>
    match transform_expr arg_1 st with
    | some (arg_1', st1) =>
      match transform_expr arg_2 st1 with
      | some (arg_2', st2) => some (Expr.BinOp location op arg_1' arg_2', st2)
      | none => none
    | none => none
  | Expr.LComprehension location template qualifiers, st =>
    match transform_expr template st with
    | some (template', st1) =>
      match transform_qualifiers qualifiers st1 with
      | some (qualifiers', st2) =>
        some (Expr.LComprehension location template' qualifiers', st2)
      | none => none
    | none => none
  | Expr.BComprehension location template qualifiers, st =>
    match transform_expr template st with
    | some (template', st1) =>
      match transform_qualifiers qualifiers st1 with
      | some (qualifiers', st2) =>
        some (Expr.BComprehension location template' qualifiers', st2)
      | none => none
    | none => none
  | Expr.MComprehension location k_template v_template qualifiers, st =>
    match transform_expr k_template st with
    | some (k', st1) =>
      match transform_expr v_template st1 with
      | some (v', st2) =>
        match transform_qualifiers qualifiers st2 with
        | some (qualifiers', st3) =>
          some (Expr.MComprehension location k' v' qualifiers', st3)
        | none => none
      | none => none
    | none => none
  | Expr.Binary location elems, st =>
    match transform_belems elems st with
    | some (elems', st') => some (Expr.Binary location elems', st')
    | none => none
  | Expr.Catch location expr, st =>
    match transform_expr expr st with
    | some (expr', st') => some (Expr.Catch location expr', st')
    | none => none
  | Expr.TryCatchExpr location try_body catch_clauses after_body, st =>
    match transform_body try_body st with
    | some (try_body', st1) =>
      match transform_clauses catch_clauses st1 with
      | some (catch_clauses', st2) =>
        match transform_obody after_body st2 with
        | some (after_body', st3) =>
          some (Expr.TryCatchExpr location try_body' catch_clauses'
            after_body', st3)
        | none => none
      | none => none
    | none => none
  | Expr.TryOfCatchExpr location try_body try_clauses catch_clauses
      after_body, st =>
    match transform_body try_body st with
    | some (try_body', st1) =>
      match transform_clauses try_clauses st1 with
      | some (try_clauses', st2) =>
        match transform_clauses catch_clauses st2 with
        | some (catch_clauses', st3) =>
          match transform_obody after_body st3 with
          | some (after_body', st4) =>
            some (Expr.TryOfCatchExpr location try_body' try_clauses'
              catch_clauses' after_body', st4)
          | none => none
        | none => none
      | none => none
    | none => none
  | Expr.Receive location clauses, st =>
    match transform_clauses clauses st with
    | some (clauses', st') => some (Expr.Receive location clauses', st')
    | none => none
  | Expr.ReceiveWithTimeout location clauses timeout timeout_body, st =>
    match transform_clauses clauses st with
    | some (clauses', st1) =>
      match transform_expr timeout st1 with
      | some (timeout', st2) =>
        match transform_body timeout_body st2 with
        | some (timeout_body', st3) =>
          some (Expr.ReceiveWithTimeout location clauses' timeout'
            timeout_body', st3)
        | none => none
      | none => none
    | none => none
  | Expr.RecordCreate location rec_name fields, st =>
    match transform_rfields fields st with
    | some (fields', st') =>
      some (Expr.RecordCreate location rec_name fields', st')
    | none => none
  | Expr.RecordUpdate location expr rec_name fields, st =>
    match transform_expr expr st with
    | some (expr', st1) =>
      match transform_rfnameds fields st1 with
      | some (fields', st2) =>
        some (Expr.RecordUpdate location expr' rec_name fields', st2)
      | none => none
    | none => none
  | Expr.RecordSelect location expr rec_name field_name, st =>
    match transform_expr expr st with
    | some (expr', st') =>
      some (Expr.RecordSelect location expr' rec_name field_name, st')
    | none => none
  | Expr.RecordIndex location rec_name field_name, st =>
    some (Expr.RecordIndex location rec_name field_name, st)
  | Expr.MapCreate location kvs, st =>
    match transform_kvs kvs st with
    | some (kvs', st') => some (Expr.MapCreate location kvs', st')
    | none => none
  | Expr.MapUpdate location map kvs, st =>
    match transform_expr map st with
    | some (map', st1) =>
      match transform_kvs kvs st1 with
      | some (kvs', st2) => some (Expr.MapUpdate location map' kvs', st2)
      | none => none
    | none => none
  | Expr.Maybe location body, st =>
    match transform_body body st with
    | some (body', st') => some (Expr.Maybe location body', st')
    | none => none
  | Expr.MaybeElse location body else_clauses, st =>
    match transform_body body st with
    | some (body', st1) =>
      match transform_clauses else_clauses st1 with
      | some (else_clauses', st2) =>
        some (Expr.MaybeElse location body' else_clauses', st2)
      | none => none
    | none => none
  | Expr.MaybeMatch location pat arg, st =>
    match transform_expr arg st with
    | some (arg', st') => some (Expr.MaybeMatch location pat arg', st')
    | none => none

def transform_exprs : List Expr → Nat → Option (List Expr × Nat)
  | [], st => some ([], st)
  | e :: es, st =>
    match transform_expr e st with
    | some (e', st1) =>
      match transform_exprs es st1 with
      | some (es', st2) => some (e' :: es', st2)
      | none => none
    | none => none

def transform_body : Body → Nat → Option (Body × Nat)
  | Body.mk exprs, st =>
    match transform_exprs exprs st with
    | some (exprs', st') => some (Body.mk exprs', st')
    | none => none

def transform_obody : Option Body → Nat → Option (Option Body × Nat)
  | none, st => some (none, st)
  | some body, st =>
    match transform_body body st with
    | some (body', st') => some (some body', st')
    | none => none

def transform_clause : Clause → Nat → Option (Clause × Nat)
  | Clause.mk location pats guards body, st =>
    match transform_body body st with
    | some (body', st') => some (Clause.mk location pats guards body', st')
    | none => none

def transform_clauses : List Clause → Nat → Option (List Clause × Nat)
  | [], st => some ([], st)
  | c :: cs, st =>
    match transform_clause c st with
    | some (c', st1) =>
      match transform_clauses cs st1 with
      | some (cs', st2) => some (c' :: cs', st2)
      | none => none
    | none => none

def transform_qualifier : Qualifier → Nat → Option (Qualifier × Nat)
  | Qualifier.LGenerate pat expr, st =>
    match transform_expr expr st with
    | some (expr', st') => some (Qualifier.LGenerate pat expr', st')
    | none => none
  | Qualifier.BGenerate pat expr, st =>
    match transform_expr expr st with
    | some (expr', st') => some (Qualifier.BGenerate pat expr', st')
    | none => none
  | Qualifier.MGenerate k_pat v_pat expr, st =>
    match transform_expr expr st with
    | some (expr', st') => some (Qualifier.MGenerate k_pat v_pat expr', st')
    | none => none
  | Qualifier.Filter expr, st =>
    match transform_expr expr st with
    | some (expr', st') => some (Qualifier.Filter expr', st')
    | none => none

def transform_qualifiers : List Qualifier → Nat → Option (List Qualifier × Nat)
  | [], st => some ([], st)
  | q :: qs, st =>
    match transform_qualifier q st with
    | some (q', st1) =>
      match transform_qualifiers qs st1 with
      | some (qs', st2) => some (q' :: qs', st2)
      | none => none
    | none => none

def transform_oexpr : Option Expr → Nat → Option (Option Expr × Nat)
  | none, st => some (none, st)
  | some e, st =>
    match transform_expr e st with
    | some (e', st') => some (some e', st')
    | none => none

def transform_belem : BinaryElem → Nat → Option (BinaryElem × Nat)
  | BinaryElem.mk location expr size specifier, st =>
    match transform_expr expr st with
    | some (expr', st1) =>
      match transform_oexpr size st1 with
      | some (size', st2) =>
        some (BinaryElem.mk location expr' size' specifier, st2)
      | none => none
    | none => none

def transform_belems : List BinaryElem → Nat → Option (List BinaryElem × Nat)
  | [], st => some ([], st)
  | b :: bs, st =>
    match transform_belem b st with
    | some (b', st1) =>
      match transform_belems bs st1 with
      | some (bs', st2) => some (b' :: bs', st2)
      | none => none
    | none => none

def transform_rfield : RecordField → Nat → Option (RecordField × Nat)
  | RecordField.RecordFieldNamed name value, st =>
    match transform_expr value st with
    | some (value', st') =>
      some (RecordField.RecordFieldNamed name value', st')
    | none => none
  | RecordField.RecordFieldGen value, st =>
    match transform_expr value st with
    | some (value', st') => some (RecordField.RecordFieldGen value', st')
    | none => none

def transform_rfields : List RecordField → Nat → Option (List RecordField × Nat)
  | [], st => some ([], st)
  | f :: fs, st =>
    match transform_rfield f st with
    | some (f', st1) =>
      match transform_rfields fs st1 with
      | some (fs', st2) => some (f' :: fs', st2)
      | none => none
    | none => none

def transform_rfnamed : RecordFieldNamed → Nat → Option (RecordFieldNamed × Nat)
  | RecordFieldNamed.mk name value, st =>
    match transform_expr value st with
    | some (value', st') => some (RecordFieldNamed.mk name value', st')
    | none => none

def transform_rfnameds :
    List RecordFieldNamed → Nat → Option (List RecordFieldNamed × Nat)
  | [], st => some ([], st)
  | f :: fs, st =>
    match transform_rfnamed f st with
    | some (f', st1) =>
      match transform_rfnameds fs st1 with
      | some (fs', st2) => some (f' :: fs', st2)
      | none => none
    | none => none

def transform_kv : Expr × Expr → Nat → Option ((Expr × Expr) × Nat)
  | (k, v), st =>
    match transform_expr k st with
    | some (k', st1) =>
      match transform_expr v st1 with
      | some (v', st2) => some ((k', v'), st2)
      | none => none
    | none => none

def transform_kvs :
    List (Expr × Expr) → Nat → Option (List (Expr × Expr) × Nat)
  | [], st => some ([], st)
  | kv :: kvs, st =>
    match transform_kv kv st with
    | some (kv', st1) =>
      match transform_kvs kvs st1 with
      | some (kvs', st2) => some (kv' :: kvs', st2)
      | none => none
    | none => none
end

/-- A top-level form.  Modelled from the spec (§3): the AST is an ordered
sequence of top-level forms and the preprocessor's transformation reaches
expressions through the clauses of function declarations; other forms carry
no expressions and pass through unchanged. -/
inductive ExternalForm where
  | FunDecl (id : Id) (clauses : List Clause)
  | OtherForm (tag : Nat)

/-- The walk of a single top-level form (modelled from the spec alongside
`ExternalForm`). -/
def transform_form : ExternalForm → Nat → Option (ExternalForm × Nat)
  | ExternalForm.FunDecl id clauses, st =>
    match transform_clauses clauses st with
    | some (clauses', st') => some (ExternalForm.FunDecl id clauses', st')
    | none => none
  | ExternalForm.OtherForm tag, st => some (ExternalForm.OtherForm tag, st)

/-- The walk of the form list of an AST. -/
def transform_forms :
    List ExternalForm → Nat → Option (List ExternalForm × Nat)
  | [], st => some ([], st)
  | f :: fs, st =>
    match transform_form f st with
    | some (f', st1) =>
      match transform_forms fs st1 with
      | some (fs', st2) => some (f' :: fs', st2)
      | none => none
    | none => none

/-- An AST: the ordered sequence of top-level forms. -/
abbrev AST := List ExternalForm

/-- `preprocess` from `preprocess.rs`: runs the transformer with the
fresh-variable counter starting at `0`; the `.unwrap()` of the source is
the outer `Option` (`none` models a panic). -/
def preprocess (ast : AST) : Option AST :=
  match transform_forms ast 0 with
  | some (ast', _) => some ast'
  | none => none

/-!
Well-formedness of an AST with respect to the `lists:partition/2` arm of the
transformer: every remote call carrying the identifier
`lists:partition` with declared arity 2 has an argument list of length
exactly 2.  This is the invariant whose violation makes the
`args.try_into().unwrap()` of `transform_expr` panic.
-/
mutual
def wf_expr : Expr → Bool
  | Expr.RemoteCall _ id args =>
    (if id.module = "lists" ∧ id.name = "partition" ∧ id.arity = 2 then
      args.length == 2
    else true) && wf_exprs args
  | Expr.Var _ _ => true
  | Expr.AtomLit _ _ => true
  | Expr.IntLit _ _ => true
  | Expr.FloatLit _ => true
  | Expr.Block _ body => wf_body body
  | Expr.Match _ _ expr => wf_expr expr
  | Expr.Tuple _ elems => wf_exprs elems
  | Expr.StringLit _ _ => true
  | Expr.NilLit _ => true
  | Expr.Cons _ h t => wf_expr h && wf_expr t
  | Expr.Case _ expr clauses => wf_expr expr && wf_clauses clauses
  | Expr.If _ clauses => wf_clauses clauses
  | Expr.LocalCall _ _ args => wf_exprs args
  | Expr.DynCall _ f args => wf_expr f && wf_exprs args
  | Expr.LocalFun _ _ => true
  | Expr.RemoteFun _ _ => true
  | Expr.DynRemoteFun _ module name => wf_expr module && wf_expr name
  | Expr.DynRemoteFunArity _ module name arity =>
    wf_expr module && wf_expr name && wf_expr arity
  | Expr.Lambda _ clauses _ => wf_clauses clauses
  | Expr.UnOp _ _ arg => wf_expr arg
  | Expr.BinOp _ _ arg_1 arg_2 => wf_expr arg_1 && wf_expr arg_2
  | Expr.LComprehension _ template qualifiers =>
    wf_expr template && wf_qualifiers qualifiers
  | Expr.BComprehension _ template qualifiers =>
    wf_expr template && wf_qualifiers qualifiers
  | Expr.MComprehension _ k_template v_template qualifiers =>
    wf_expr k_template && wf_expr v_template && wf_qualifiers qualifiers
  | Expr.Binary _ elems => wf_belems elems
  | Expr.Catch _ expr => wf_expr expr
  | Expr.TryCatchExpr _ try_body catch_clauses after_body =>
    wf_body try_body && wf_clauses catch_clauses && wf_obody after_body
  | Expr.TryOfCatchExpr _ try_body try_clauses catch_clauses after_body =>
    wf_body try_body && wf_clauses try_clauses && wf_clauses catch_clauses &&
      wf_obody after_body
  | Expr.Receive _ clauses => wf_clauses clauses
  | Expr.ReceiveWithTimeout _ clauses timeout timeout_body =>
    wf_clauses clauses && wf_expr timeout && wf_body timeout_body
  | Expr.RecordCreate _ _ fields => wf_rfields fields
  | Expr.RecordUpdate _ expr _ fields => wf_expr expr && wf_rfnameds fields
  | Expr.RecordSelect _ expr _ _ => wf_expr expr
  | Expr.RecordIndex _ _ _ => true
  | Expr.MapCreate _ kvs => wf_kvs kvs
  | Expr.MapUpdate _ map kvs => wf_expr map && wf_kvs kvs
  | Expr.Maybe _ body => wf_body body
  | Expr.MaybeElse _ body else_clauses => wf_body body && wf_clauses else_clauses
  | Expr.MaybeMatch _ _ arg => wf_expr arg

def wf_exprs : List Expr → Bool
  | [] => true
  | e :: es => wf_expr e && wf_exprs es

def wf_body : Body → Bool
  | Body.mk exprs => wf_exprs exprs

def wf_obody : Option Body → Bool
  | none => true
  | some body => wf_body body

def wf_clause : Clause → Bool
  | Clause.mk _ _ _ body => wf_body body

def wf_clauses : List Clause → Bool
  | [] => true
  | c :: cs => wf_clause c && wf_clauses cs

def wf_qualifier : Qualifier → Bool
  | Qualifier.LGenerate _ expr => wf_expr expr
  | Qualifier.BGenerate _ expr => wf_expr expr
  | Qualifier.MGenerate _ _ expr => wf_expr expr
  | Qualifier.Filter expr => wf_expr expr

def wf_qualifiers : List Qualifier → Bool
  | [] => true
  | q :: qs => wf_qualifier q && wf_qualifiers qs

def wf_oexpr : Option Expr → Bool
  | none => true
  | some e => wf_expr e

def wf_belem : BinaryElem → Bool
  | BinaryElem.mk _ expr size _ => wf_expr expr && wf_oexpr size

def wf_belems : List BinaryElem → Bool
  | [] => true
  | b :: bs => wf_belem b && wf_belems bs

def wf_rfield : RecordField → Bool
  | RecordField.RecordFieldNamed _ value => wf_expr value
  | RecordField.RecordFieldGen value => wf_expr value

def wf_rfields : List RecordField → Bool
  | [] => true
  | f :: fs => wf_rfield f && wf_rfields fs

def wf_rfnamed : RecordFieldNamed → Bool
  | RecordFieldNamed.mk _ value => wf_expr value

def wf_rfnameds : List RecordFieldNamed → Bool
  | [] => true
  | f :: fs => wf_rfnamed f && wf_rfnameds fs

def wf_kv : Expr × Expr → Bool
  | (k, v) => wf_expr k && wf_expr v

def wf_kvs : List (Expr × Expr) → Bool
  | [] => true
  | kv :: kvs => wf_kv kv && wf_kvs kvs
end

/-- Well-formedness of a top-level form. -/
def wf_form : ExternalForm → Bool
  | ExternalForm.FunDecl _ clauses => wf_clauses clauses
  | ExternalForm.OtherForm _ => true

/-- Well-formedness of an AST. -/
def wf_ast : AST → Bool
  | [] => true
  | f :: fs => wf_form f && wf_ast fs

/-!
Concrete inputs used by witnesses and counterexamples.
-/

/-- A `lists:partition/2` call whose argument list is empty: the shape on
which `transform_expr` hits `args.try_into().unwrap()`. -/
def bad_partition_call : Expr := Expr.RemoteCall 0 ⟨"lists", "partition", 2⟩ []

/-- An AST containing `bad_partition_call` inside a function clause body. -/
def bad_ast : AST :=
  [ExternalForm.FunDecl ⟨"f", 1⟩
    [Clause.mk 0 [Pat.PatWild 0] [] (Body.mk [bad_partition_call])]]

/-- The expression `lists:partition(fun erlang:is_atom/1, L)`. -/
def partition_is_atom_call : Expr :=
  Expr.RemoteCall 0 ⟨"lists", "partition", 2⟩
    [Expr.RemoteFun 0 ⟨"erlang", "is_atom", 1⟩, Expr.Var 0 "L"]

/-- The lambda `fun (X) -> X > 0 end`. -/
def lambda_gt_zero : Expr :=
  Expr.Lambda 0
    [Clause.mk 0 [Pat.PatVar 0 "X"] []
      (Body.mk [Expr.BinOp 0 ">" (Expr.Var 0 "X") (Expr.IntLit 0 (some 0))])]
    none

/-- The expression `lists:partition(fun (X) -> X > 0 end, L)`. -/
def partition_lambda_call : Expr :=
  Expr.RemoteCall 0 ⟨"lists", "partition", 2⟩ [lambda_gt_zero, Expr.Var 0 "L"]

/-- An AST containing `partition_is_atom_call` inside a function clause body. -/
def good_ast : AST :=
  [ExternalForm.FunDecl ⟨"f", 1⟩
    [Clause.mk 0 [Pat.PatWild 0] [] (Body.mk [partition_is_atom_call])]]

/-- A derivation that always fails with `ModuleNotFound`. -/
def ast_bytes_mnf : String → EqWAlizerASTFormat → Except AstError (List Nat) :=
  fun _ _ => Except.error (AstError.ModuleNotFound "x")

/-- A derivation that always fails with `ParseError`. -/
def ast_bytes_pe : String → EqWAlizerASTFormat → Except AstError (List Nat) :=
  fun _ _ => Except.error AstError.ParseError

/-- A derivation that always fails with a `TypeConversionError`. -/
def ast_bytes_tce : String → EqWAlizerASTFormat → Except AstError (List Nat) :=
  fun _ _ => Except.error (AstError.TypeConversionError "boom")

/-- A derivation that always succeeds with the bytes `[1, 2, 3]`. -/
def ast_bytes_ok : String → EqWAlizerASTFormat → Except AstError (List Nat) :=
  fun _ _ => Except.ok [1, 2, 3]

/-- A concrete errors map with entries at `"m"` and `"p"`. -/
def errors_map_1 : HMap (List EqwalizerDiagnostic) := fun k =>
  if k = "m" then some [⟨1⟩] else if k = "p" then some [⟨3⟩] else none

/-- A concrete errors map with an entry at `"m"` only. -/
def errors_map_2 : HMap (List EqwalizerDiagnostic) := HMap.single "m" [⟨2⟩]

/-- A concrete type-info map with an entry at `"m"` only. -/
def type_info_map_1 : HMap (List (Pos × Ty)) := HMap.single "m" [(0, ⟨1⟩)]

/-- A concrete type-info map with an entry at `"q"` only. -/
def type_info_map_2 : HMap (List (Pos × Ty)) := HMap.single "q" [(1, ⟨2⟩)]

/-- The fixed-point property of one transformation function: every output
is returned unchanged (with no fresh-variable consumption) by a second
pass, whatever the counter. -/
abbrev FPGen {X : Type} (tr : X → Nat → Option (X × Nat)) (x : X) (st : Nat) :
    Prop :=
  ∀ x' st', tr x st = some (x', st') → ∀ st2, tr x' st2 = some (x', st2)

/-- Totality of one transformation function on well-formed input. -/
abbrev TotGen {X : Type} (tr : X → Nat → Option (X × Nat)) (wf : X → Bool)
    (x : X) (st : Nat) : Prop :=
  wf x = true → (tr x st).isSome = true

/-- Conjunction of `FPGen` and `TotGen`, the joint induction motive. -/
abbrev MainGen {X : Type} (tr : X → Nat → Option (X × Nat)) (wf : X → Bool)
    (x : X) (st : Nat) : Prop :=
  FPGen tr x st ∧ TotGen tr wf x st

/-!
Theorems.
-/

/-- C1, counterexample: combining `NoAst {module: "a"}` with
`NoAst {module: "b"}` yields the module `"a"`, the lexicographically
smaller of the two, and not `"b"` as the claim (lexicographically larger
wins) states. -/
theorem combine_noAst_counterexample :
    EqwalizerDiagnostics.combine (EqwalizerDiagnostics.NoAst "a")
      (EqwalizerDiagnostics.NoAst "b") = EqwalizerDiagnostics.NoAst "a" ∧
    ("a" : String) < "b" ∧
    EqwalizerDiagnostics.combine (EqwalizerDiagnostics.NoAst "a")
      (EqwalizerDiagnostics.NoAst "b") ≠ EqwalizerDiagnostics.NoAst "b" := by
  have hab : ("a" : String) < "b" := by
    rw [String.lt_iff_toList_lt]
    decide
  have heq : EqwalizerDiagnostics.combine (EqwalizerDiagnostics.NoAst "a")
      (EqwalizerDiagnostics.NoAst "b") = EqwalizerDiagnostics.NoAst "a" := by
    simp [EqwalizerDiagnostics.combine, hab]
  refine ⟨heq, hab, ?_⟩
  rw [heq]
  intro h
  injection h with h'
  exact absurd h' (by decide)

/-- C1, amended: `combine` of two `NoAst` values returns the `NoAst` value
whose module name is the lexicographically smaller of the two. -/
theorem combine_noAst_picks_smaller (a b : String) :
    EqwalizerDiagnostics.combine (EqwalizerDiagnostics.NoAst a)
      (EqwalizerDiagnostics.NoAst b) = EqwalizerDiagnostics.NoAst (min a b) := by
  simp only [EqwalizerDiagnostics.combine]
  split
  · rename_i h
    rw [min_eq_left (le_of_lt h)]
  · rename_i h
    rw [min_eq_right (le_of_not_lt h)]

/-- C2, counterexample: on receiving `Done` with a non-empty diagnostics
payload, the top-level driver loop returns the accumulated diagnostics
unchanged; the returned value differs from the accumulated diagnostics
merged with the `Done` payload, so the claim's description of the return
value is false. -/
theorem do_typecheck_done_payload_not_merged :
    do_typecheck_loop (fun _ => EqwalizerDiagnostics.default')
      [MsgFromEqWAlizer.Done errors_map_2 HMap.empty]
      EqwalizerDiagnostics.default' = some EqwalizerDiagnostics.default' ∧
    some EqwalizerDiagnostics.default' ≠
      some (EqwalizerDiagnostics.default'.combine
        (EqwalizerDiagnostics.Diagnostics errors_map_2 HMap.empty)) := by
  constructor
  · rfl
  · intro h
    have h2 := Option.some.inj h
    have h3 : EqwalizerDiagnostics.default'.combine
        (EqwalizerDiagnostics.Diagnostics errors_map_2 HMap.empty) =
        EqwalizerDiagnostics.Diagnostics (HMap.empty.extend errors_map_2)
          (HMap.empty.extend HMap.empty) := rfl
    rw [h3] at h2
    simp only [EqwalizerDiagnostics.default'] at h2
    injection h2 with he ht
    have hm := congrFun he "m"
    simp [HMap.empty, HMap.extend, errors_map_2, HMap.single] at hm

/-- C2, amended: when the top-level driver loop receives
`Done {diagnostics, type_info}`, it terminates successfully and returns the
accumulated diagnostics unchanged, discarding the diagnostics and type_info
carried in the final `Done` payload. -/
theorem do_typecheck_done_returns_accumulated
    (module_diagnostics : String → EqwalizerDiagnostics)
    (d : HMap (List EqwalizerDiagnostic)) (t : HMap (List (Pos × Ty)))
    (rest : List MsgFromEqWAlizer) (acc : EqwalizerDiagnostics) :
    do_typecheck_loop module_diagnostics
      (MsgFromEqWAlizer.Done d t :: rest) acc = some acc := rfl

/-- C5: a terminal `Error` or `NoAst` value always wins over a plain
`Diagnostics` value under `combine`, in either argument order. -/
theorem combine_terminal_absorbs_diagnostics (msg m : String)
    (e : HMap (List EqwalizerDiagnostic)) (t : HMap (List (Pos × Ty))) :
    EqwalizerDiagnostics.combine (EqwalizerDiagnostics.Error msg)
      (EqwalizerDiagnostics.Diagnostics e t) = EqwalizerDiagnostics.Error msg ∧
    EqwalizerDiagnostics.combine (EqwalizerDiagnostics.Diagnostics e t)
      (EqwalizerDiagnostics.Error msg) = EqwalizerDiagnostics.Error msg ∧
    EqwalizerDiagnostics.combine (EqwalizerDiagnostics.NoAst m)
      (EqwalizerDiagnostics.Diagnostics e t) = EqwalizerDiagnostics.NoAst m ∧
    EqwalizerDiagnostics.combine (EqwalizerDiagnostics.Diagnostics e t)
      (EqwalizerDiagnostics.NoAst m) = EqwalizerDiagnostics.NoAst m :=
  ⟨rfl, rfl, rfl, rfl⟩

/-- C9: when no eqwalizer executable can be located (neither environment
variable is set, so `ensure_exe` returns `None` and no command can be
constructed), `Eqwalizer::typecheck` returns the empty `Diagnostics` value,
whatever the typechecking run would have produced. -/
theorem typecheck_no_exe_returns_empty_diagnostics
    (run : Except String EqwalizerDiagnostics) :
    typecheck (ensure_exe none none) run =
      some (EqwalizerDiagnostics.Diagnostics HMap.empty HMap.empty) := rfl

/-- C10: combining two plain `Diagnostics` values is right-biased: at a key
present in the second operand's errors map (or type_info map), the combined
map binds the second operand's entry, replacing the first operand's list
rather than concatenating; keys present in only one operand are kept. -/
theorem combine_diagnostics_right_biased
    (e1 e2 : HMap (List EqwalizerDiagnostic))
    (t1 t2 : HMap (List (Pos × Ty))) :
    ∃ er ti,
      EqwalizerDiagnostics.combine (EqwalizerDiagnostics.Diagnostics e1 t1)
        (EqwalizerDiagnostics.Diagnostics e2 t2) =
        EqwalizerDiagnostics.Diagnostics er ti ∧
      (∀ k v, e2 k = some v → er k = some v) ∧
      (∀ k, e2 k = none → er k = e1 k) ∧
      (∀ k v, t2 k = some v → ti k = some v) ∧
      (∀ k, t2 k = none → ti k = t1 k) := by
  refine ⟨e1.extend e2, t1.extend t2, rfl, ?_, ?_, ?_, ?_⟩
  · intro k v h
    simp [HMap.extend, h]
  · intro k h
    simp [HMap.extend, h]
  · intro k v h
    simp [HMap.extend, h]
  · intro k h
    simp [HMap.extend, h]

/-- C10, witness: on concrete maps sharing the key `"m"` in their errors
maps, the combined errors map holds the second operand's list at `"m"`,
keeps the first operand's entry at `"p"`, and the type-info maps keep the
entries of whichever operand has them. -/
theorem combine_diagnostics_right_biased_witness :
    ∃ er ti,
      EqwalizerDiagnostics.combine
        (EqwalizerDiagnostics.Diagnostics errors_map_1 type_info_map_1)
        (EqwalizerDiagnostics.Diagnostics errors_map_2 type_info_map_2) =
        EqwalizerDiagnostics.Diagnostics er ti ∧
      er "m" = some [⟨2⟩] ∧ er "p" = some [⟨3⟩] ∧
      ti "m" = some [(0, ⟨1⟩)] ∧ ti "q" = some [(1, ⟨2⟩)] := by
  obtain ⟨er, ti, heq, h1, h2, h3, h4⟩ :=
    combine_diagnostics_right_biased errors_map_1 errors_map_2
      type_info_map_1 type_info_map_2
  refine ⟨er, ti, heq, h1 "m" [⟨2⟩] rfl, (h2 "p" rfl).trans rfl,
    (h4 "m" rfl).trans rfl, h3 "q" [(1, ⟨2⟩)] rfl⟩

/-- Concatenating the chunks of a list restores the list. -/
theorem chunksPos_flatten {α : Type} (m : Nat) (l : List α) :
    (chunksPos m l).flatten = l := by
  refine chunksPos.induct m (fun l => (chunksPos m l).flatten = l) ?_ ?_ l
  · simp [chunksPos]
  · intro x xs ih
    rw [chunksPos]
    simp only [List.flatten_cons, ih]
    exact List.take_append_drop _ _

/-- Every chunk is non-empty and no longer than the chunk size. -/
theorem chunksPos_mem_length {α : Type} (m : Nat) (l : List α) :
    ∀ c : List α, c ∈ chunksPos m l → c.length ≤ m + 1 ∧ c ≠ [] := by
  refine chunksPos.induct m
    (fun l => ∀ c : List α, c ∈ chunksPos m l → c.length ≤ m + 1 ∧ c ≠ [])
    ?_ ?_ l
  · intro c hc
    simp [chunksPos] at hc
  · intro x xs ih c hc
    rw [chunksPos] at hc
    rcases List.mem_cons.mp hc with h | h
    · subst h
      refine ⟨by simp, by simp⟩
    · exact ih c h

/-- Every chunk except possibly the last has length exactly the chunk
size. -/
theorem chunksPos_dropLast_length {α : Type} (m : Nat) (l : List α) :
    ∀ c : List α, c ∈ (chunksPos m l).dropLast → c.length = m + 1 := by
  refine chunksPos.induct m
    (fun l => ∀ c : List α, c ∈ (chunksPos m l).dropLast → c.length = m + 1)
    ?_ ?_ l
  · intro c hc
    simp [chunksPos] at hc
  · intro x xs ih c hc
    rw [chunksPos] at hc
    cases hrest : chunksPos m ((x :: xs).drop (m + 1)) with
    | nil =>
      rw [hrest] at hc
      simp at hc
    | cons r rs =>
      rw [hrest, List.dropLast_cons₂] at hc
      rcases List.mem_cons.mp hc with h | h
      · subst h
        have hne : (x :: xs).drop (m + 1) ≠ [] := by
          intro hnil
          rw [hnil] at hrest
          simp [chunksPos] at hrest
        have hlen : m + 1 < (x :: xs).length := by
          by_contra hle
          exact hne (List.drop_eq_nil_iff.mpr (by omega))
        simp only [List.length_cons] at hlen
        simp [List.length_take]
        omega
      · rw [← hrest] at h
        exact ih c h

/-- A non-empty list no longer than the chunk size is a single chunk. -/
theorem chunksPos_single {α : Type} (m : Nat) (l : List α) (hne : l ≠ [])
    (hlen : l.length ≤ m + 1) : chunksPos m l = [l] := by
  cases l with
  | nil => exact absurd rfl hne
  | cons x xs =>
    rw [chunksPos, List.take_of_length_le hlen,
      List.drop_eq_nil_iff.mpr hlen]
    simp [chunksPos]

/-- C3: in the per-module sub-loop, a `GetAstBytes` whose derivation fails
with `ModuleNotFound` is answered by `GetAstBytesReply {ast_bytes_len: 0}`
with no bytes sent and the sub-loop continues; a `ParseError` is answered by
`CannotCompleteRequest` and the sub-loop returns `NoAst {module}`; any other
derivation error is answered by `CannotCompleteRequest` and the sub-loop
returns `Error` carrying the error's message. -/
theorem get_ast_bytes_error_handling
    (ast_bytes : String → EqWAlizerASTFormat → Except AstError (List Nat))
    (module : String) (format : EqWAlizerASTFormat)
    (rest : List MsgFromEqWAlizer) (sent : List SentItem) :
    (∀ m', ast_bytes module format =
        Except.error (AstError.ModuleNotFound m') →
      get_module_diagnostics_loop ast_bytes
        (MsgFromEqWAlizer.GetAstBytes module format :: rest) sent =
      get_module_diagnostics_loop ast_bytes rest
        (sent ++ [SentItem.ctrl (MsgToEqWAlizer.GetAstBytesReply 0),
          SentItem.awaitNewline])) ∧
    (ast_bytes module format = Except.error AstError.ParseError →
      get_module_diagnostics_loop ast_bytes
        (MsgFromEqWAlizer.GetAstBytes module format :: rest) sent =
      some (sent ++ [SentItem.ctrl MsgToEqWAlizer.CannotCompleteRequest],
        EqwalizerDiagnostics.NoAst module)) ∧
    (∀ err, ast_bytes module format = Except.error err →
      (∀ m', err ≠ AstError.ModuleNotFound m') →
      err ≠ AstError.ParseError →
      get_module_diagnostics_loop ast_bytes
        (MsgFromEqWAlizer.GetAstBytes module format :: rest) sent =
      some (sent ++ [SentItem.ctrl MsgToEqWAlizer.CannotCompleteRequest],
        EqwalizerDiagnostics.Error err.message)) := by
  refine ⟨?_, ?_, ?_⟩
  · intro m' h
    simp [get_module_diagnostics_loop, h]
  · intro h
    simp [get_module_diagnostics_loop, h]
  · intro err h hmnf hpe
    cases err with
    | ModuleNotFound m' => exact absurd rfl (hmnf m')
    | ParseError => exact absurd rfl hpe
    | BEAMNotFound p => simp [get_module_diagnostics_loop, h]
    | TypeConversionError msg => simp [get_module_diagnostics_loop, h]
    | ContractivityError msg => simp [get_module_diagnostics_loop, h]
    | VarianceCheckError msg => simp [get_module_diagnostics_loop, h]
    | TransitiveCheckError msg => simp [get_module_diagnostics_loop, h]

/-- C3, witness: the three error branches evaluated on concrete derivations
for the message `GetAstBytes {"m", ConvertedForms}`. -/
theorem get_ast_bytes_error_handling_witness :
    (get_module_diagnostics_loop ast_bytes_mnf
      [MsgFromEqWAlizer.GetAstBytes "m" EqWAlizerASTFormat.ConvertedForms] [] =
      get_module_diagnostics_loop ast_bytes_mnf []
        ([] ++ [SentItem.ctrl (MsgToEqWAlizer.GetAstBytesReply 0),
          SentItem.awaitNewline])) ∧
    (get_module_diagnostics_loop ast_bytes_pe
      [MsgFromEqWAlizer.GetAstBytes "m" EqWAlizerASTFormat.ConvertedForms] [] =
      some ([] ++ [SentItem.ctrl MsgToEqWAlizer.CannotCompleteRequest],
        EqwalizerDiagnostics.NoAst "m")) ∧
    (get_module_diagnostics_loop ast_bytes_tce
      [MsgFromEqWAlizer.GetAstBytes "m" EqWAlizerASTFormat.ConvertedForms] [] =
      some ([] ++ [SentItem.ctrl MsgToEqWAlizer.CannotCompleteRequest],
        EqwalizerDiagnostics.Error
          (AstError.TypeConversionError "boom").message)) :=
  ⟨(get_ast_bytes_error_handling ast_bytes_mnf "m"
      EqWAlizerASTFormat.ConvertedForms [] []).1 "x" rfl,
   (get_ast_bytes_error_handling ast_bytes_pe "m"
      EqWAlizerASTFormat.ConvertedForms [] []).2.1 rfl,
   (get_ast_bytes_error_handling ast_bytes_tce "m"
      EqWAlizerASTFormat.ConvertedForms [] []).2.2
     (AstError.TypeConversionError "boom") rfl
     (fun _ h => AstError.noConfusion h) (fun h => AstError.noConfusion h)⟩

/-- C8, counterexample: for a payload of 65537 bytes, `send_bytes` emits the
two chunk writes back to back followed by a single flush; the stream the
claim describes, with a flush after each chunk, is a different stream. -/
theorem send_bytes_single_flush_counterexample :
    send_bytes_events (List.replicate 65537 0) =
      [SentItem.chunkWrite (List.replicate 65536 0), SentItem.chunkWrite [0],
        SentItem.flushBytes] ∧
    [SentItem.chunkWrite (List.replicate 65536 0), SentItem.chunkWrite [0],
        SentItem.flushBytes] ≠
      [SentItem.chunkWrite (List.replicate 65536 0), SentItem.flushBytes,
        SentItem.chunkWrite [0], SentItem.flushBytes] := by
  constructor
  · have hchunks : chunksPos 65535 (List.replicate 65537 (0 : Nat)) =
        [List.replicate 65536 0, [0]] := by
      rw [show (65537 : Nat) = 65536 + 1 from rfl, List.replicate_succ,
        chunksPos, ← List.replicate_succ]
      rw [show (65535 : Nat) + 1 = 65536 from rfl]
      rw [List.take_replicate, List.drop_replicate]
      have h1 : (65536 : Nat) ⊓ (65536 + 1) = 65536 := by
        rw [Nat.min_def]
        simp
      rw [h1, show (65536 : Nat) + 1 - 65536 = 1 from rfl]
      rw [show List.replicate 1 (0 : Nat) = [0] from rfl]
      rw [chunksPos_single 65535 [0] (by simp) (by simp)]
    rw [send_bytes_events, hchunks]
    rfl
  · intro h
    have := List.cons.inj h
    have h2 := List.cons.inj this.2
    exact SentItem.noConfusion h2.1

/-- C8, amended: when replying successfully to `GetAstBytes`, the driver
sends `GetAstBytesReply` with the byte length, waits for an acknowledging
newline, then writes the raw payload in chunks of exactly 64 KiB (65536
bytes, the last chunk possibly shorter), issuing a single flush of the write
channel after the final chunk (not after each chunk). -/
theorem get_ast_bytes_success_streams_chunks
    (ast_bytes : String → EqWAlizerASTFormat → Except AstError (List Nat))
    (module : String) (format : EqWAlizerASTFormat)
    (rest : List MsgFromEqWAlizer) (sent : List SentItem) (bytes : List Nat)
    (h : ast_bytes module format = Except.ok bytes) :
    get_module_diagnostics_loop ast_bytes
      (MsgFromEqWAlizer.GetAstBytes module format :: rest) sent =
      get_module_diagnostics_loop ast_bytes rest
        (sent ++ [SentItem.ctrl
            (MsgToEqWAlizer.GetAstBytesReply bytes.length),
          SentItem.awaitNewline] ++ send_bytes_events bytes) ∧
    ∃ cs : List (List Nat), send_bytes_events bytes =
        cs.map SentItem.chunkWrite ++ [SentItem.flushBytes] ∧
      cs.flatten = bytes ∧
      (∀ c ∈ cs.dropLast, c.length = 65536) ∧
      (∀ c ∈ cs, c.length ≤ 65536 ∧ c ≠ []) := by
  constructor
  · simp [get_module_diagnostics_loop, h]
  · refine ⟨chunksPos 65535 bytes, rfl, chunksPos_flatten 65535 bytes,
      ?_, ?_⟩
    · intro c hc
      exact chunksPos_dropLast_length 65535 bytes c hc
    · intro c hc
      exact chunksPos_mem_length 65535 bytes c hc

/-- C8, witness: the success branch evaluated on a concrete derivation
returning the bytes `[1, 2, 3]`. -/
theorem get_ast_bytes_success_streams_chunks_witness :
    get_module_diagnostics_loop ast_bytes_ok
      [MsgFromEqWAlizer.GetAstBytes "m" EqWAlizerASTFormat.ConvertedForms] [] =
      get_module_diagnostics_loop ast_bytes_ok []
        ([] ++ [SentItem.ctrl
            (MsgToEqWAlizer.GetAstBytesReply ([1, 2, 3] : List Nat).length),
          SentItem.awaitNewline] ++ send_bytes_events [1, 2, 3]) ∧
    ∃ cs : List (List Nat), send_bytes_events [1, 2, 3] =
        cs.map SentItem.chunkWrite ++ [SentItem.flushBytes] ∧
      cs.flatten = [1, 2, 3] ∧
      (∀ c ∈ cs.dropLast, c.length = 65536) ∧
      (∀ c ∈ cs, c.length ≤ 65536 ∧ c ≠ []) :=
  get_ast_bytes_success_streams_chunks ast_bytes_ok "m"
    EqWAlizerASTFormat.ConvertedForms [] [] [1, 2, 3] rfl

/-- C6: the preprocessor rewrites the first argument of a remote call to
`lists:partition/2` into a two-clause anonymous function when that argument
is (a) a reference to an allow-listed unary predicate — producing a lambda
whose first clause matches a fresh variable guarded by the predicate applied
to that variable and returns `true`, and whose second clause matches the
same catch-all variable pattern and returns `false` — or (b) a
single-clause lambda with a single pattern whose single body expression
reduces to a test — producing a lambda whose first clause keeps the pattern
guarded by the test and returns `true`, and whose second clause is a
fresh-variable catch-all returning `false`. -/
theorem partition_arg_rewrite :
    (∀ (st : Nat) (call_loc fun_loc : Pos) (id : RemoteId) (arg_list : Expr),
      id.toId ∈ PREDICATES → id.arity = 1 →
      transform_expr (Expr.RemoteCall call_loc ⟨"lists", "partition", 2⟩
        [Expr.RemoteFun fun_loc id, arg_list]) st =
      some (Expr.RemoteCall call_loc ⟨"lists", "partition", 2⟩
        [Expr.Lambda call_loc
          [Clause.mk call_loc [Pat.PatVar call_loc (fresh_var st)]
            [⟨[Test.TestCall call_loc ⟨id.name, 1⟩
              [Test.TestVar call_loc (fresh_var st)]]⟩]
            (Body.mk [Expr.atom_true call_loc]),
           Clause.mk call_loc [Pat.PatVar call_loc (fresh_var st)] []
            (Body.mk [Expr.atom_false call_loc])] none,
         arg_list], st + 1)) ∧
    (∀ (st : Nat) (call_loc lloc cloc : Pos) (lname : Option String)
      (pat : Pat) (guards : List Guard) (b : Expr) (test : Test)
      (arg_list : Expr),
      as_test b = some test →
      transform_expr (Expr.RemoteCall call_loc ⟨"lists", "partition", 2⟩
        [Expr.Lambda lloc [Clause.mk cloc [pat] guards (Body.mk [b])] lname,
         arg_list]) st =
      some (Expr.RemoteCall call_loc ⟨"lists", "partition", 2⟩
        [Expr.Lambda lloc
          [Clause.mk cloc [pat] [⟨[test]⟩] (Body.mk [Expr.atom_true cloc]),
           Clause.mk cloc [Pat.PatVar cloc (fresh_var st)] []
            (Body.mk [Expr.atom_false cloc])] lname,
         arg_list], st + 1)) := by
  constructor
  · intro st call_loc fun_loc id arg_list hpred harity
    simp [transform_expr, preprocess_lists_partition_arg_fun, hpred, harity,
      eta_expand_unary_predicate]
  · intro st call_loc lloc cloc lname pat guards b test arg_list htest
    simp [transform_expr, preprocess_lists_partition_arg_fun, htest]

/-- C6, witness: `lists:partition(fun erlang:is_atom/1, L)` and
`lists:partition(fun (X) -> X > 0 end, L)` rewritten at counter 0. -/
theorem partition_arg_rewrite_witness :
    transform_expr partition_is_atom_call 0 =
      some (Expr.RemoteCall 0 ⟨"lists", "partition", 2⟩
        [Expr.Lambda 0
          [Clause.mk 0 [Pat.PatVar 0 (fresh_var 0)]
            [⟨[Test.TestCall 0 ⟨"is_atom", 1⟩ [Test.TestVar 0 (fresh_var 0)]]⟩]
            (Body.mk [Expr.atom_true 0]),
           Clause.mk 0 [Pat.PatVar 0 (fresh_var 0)] []
            (Body.mk [Expr.atom_false 0])] none,
         Expr.Var 0 "L"], 1) ∧
    transform_expr partition_lambda_call 0 =
      some (Expr.RemoteCall 0 ⟨"lists", "partition", 2⟩
        [Expr.Lambda 0
          [Clause.mk 0 [Pat.PatVar 0 "X"]
            [⟨[Test.TestBinOp 0 ">" (Test.TestVar 0 "X")
              (Test.TestNumber 0 (some 0))]⟩]
            (Body.mk [Expr.atom_true 0]),
           Clause.mk 0 [Pat.PatVar 0 (fresh_var 0)] []
            (Body.mk [Expr.atom_false 0])] none,
         Expr.Var 0 "L"], 1) :=
  ⟨partition_arg_rewrite.1 0 0 0 ⟨"erlang", "is_atom", 1⟩ (Expr.Var 0 "L")
    (by decide) rfl,
   partition_arg_rewrite.2 0 0 0 0 none (Pat.PatVar 0 "X") []
    (Expr.BinOp 0 ">" (Expr.Var 0 "X") (Expr.IntLit 0 (some 0)))
    (Test.TestBinOp 0 ">" (Test.TestVar 0 "X") (Test.TestNumber 0 (some 0)))
    (Expr.Var 0 "L") rfl⟩

theorem pp_arg_fun_fix (st : Nat) (loc : Pos) (f f' : Expr) (st' : Nat)
    (h : preprocess_lists_partition_arg_fun st loc f = (f', st')) :
    ∀ st2, preprocess_lists_partition_arg_fun st2 loc f' = (f', st2) := by
  cases f
  case RemoteFun floc id =>
    by_cases hcond : id.toId ∈ PREDICATES ∧ id.arity = 1
    · simp only [preprocess_lists_partition_arg_fun, if_pos hcond,
        eta_expand_unary_predicate] at h
      obtain ⟨rfl, rfl⟩ := Prod.mk.inj h
      intro st2
      simp [preprocess_lists_partition_arg_fun]
    · simp only [preprocess_lists_partition_arg_fun, if_neg hcond] at h
      obtain ⟨rfl, rfl⟩ := Prod.mk.inj h
      intro st2
      simp [preprocess_lists_partition_arg_fun, if_neg hcond]
  case Lambda lloc clauses lname =>
    rcases clauses with _ | ⟨c, cs⟩
    · simp only [preprocess_lists_partition_arg_fun] at h
      obtain ⟨rfl, rfl⟩ := Prod.mk.inj h
      intro st2
      simp [preprocess_lists_partition_arg_fun]
    rcases cs with _ | ⟨c2, cs2⟩
    · obtain ⟨cloc, pats, guards, body⟩ := c
      obtain ⟨exprs⟩ := body
      rcases exprs with _ | ⟨b, bs⟩
      · simp only [preprocess_lists_partition_arg_fun] at h
        obtain ⟨rfl, rfl⟩ := Prod.mk.inj h
        intro st2
        simp [preprocess_lists_partition_arg_fun]
      rcases bs with _ | ⟨b2, bs2⟩
      · rcases pats with _ | ⟨p, ps⟩
        · simp only [preprocess_lists_partition_arg_fun] at h
          obtain ⟨rfl, rfl⟩ := Prod.mk.inj h
          intro st2
          simp [preprocess_lists_partition_arg_fun]
        rcases ps with _ | ⟨p2, ps2⟩
        · cases hat : as_test b with
          | some t =>
            simp only [preprocess_lists_partition_arg_fun, hat] at h
            obtain ⟨rfl, rfl⟩ := Prod.mk.inj h
            intro st2
            simp [preprocess_lists_partition_arg_fun]
          | none =>
            simp only [preprocess_lists_partition_arg_fun, hat] at h
            obtain ⟨rfl, rfl⟩ := Prod.mk.inj h
            intro st2
            simp [preprocess_lists_partition_arg_fun, hat]
        · simp only [preprocess_lists_partition_arg_fun] at h
          obtain ⟨rfl, rfl⟩ := Prod.mk.inj h
          intro st2
          simp [preprocess_lists_partition_arg_fun]
      · simp only [preprocess_lists_partition_arg_fun] at h
        obtain ⟨rfl, rfl⟩ := Prod.mk.inj h
        intro st2
        simp [preprocess_lists_partition_arg_fun]
    · simp only [preprocess_lists_partition_arg_fun] at h
      obtain ⟨rfl, rfl⟩ := Prod.mk.inj h
      intro st2
      simp [preprocess_lists_partition_arg_fun]
  all_goals
    simp only [preprocess_lists_partition_arg_fun] at h
  all_goals
    obtain ⟨rfl, rfl⟩ := Prod.mk.inj h
  all_goals
    intro st2
  all_goals
    simp [preprocess_lists_partition_arg_fun]

/-- Joint fixed-point and totality property of the preprocessor walk:
outputs of `transform_expr` are fixed points of a second pass (with no
fresh-variable consumption), and on well-formed expressions the walk
never fails. -/
theorem transform_main : ∀ (e : Expr) (st : Nat),
    MainGen transform_expr wf_expr e st := by
  intro e st
  induction e, st using transform_expr.induct with
  | motive_2 x st => exact MainGen transform_kvs wf_kvs x st
  | motive_3 x st => exact MainGen transform_kv wf_kv x st
  | motive_4 x st => exact MainGen transform_rfnameds wf_rfnameds x st
  | motive_5 x st => exact MainGen transform_rfnamed wf_rfnamed x st
  | motive_6 x st => exact MainGen transform_rfields wf_rfields x st
  | motive_7 x st => exact MainGen transform_rfield wf_rfield x st
  | motive_8 x st => exact MainGen transform_obody wf_obody x st
  | motive_9 x st => exact MainGen transform_body wf_body x st
  | motive_10 x st => exact MainGen transform_exprs wf_exprs x st
  | motive_11 x st => exact MainGen transform_belems wf_belems x st
  | motive_12 x st => exact MainGen transform_belem wf_belem x st
  | motive_13 x st => exact MainGen transform_oexpr wf_oexpr x st
  | motive_14 x st => exact MainGen transform_qualifiers wf_qualifiers x st
  | motive_15 x st => exact MainGen transform_qualifier wf_qualifier x st
  | motive_16 x st => exact MainGen transform_clauses wf_clauses x st
  | motive_17 x st => exact MainGen transform_clause wf_clause x st
  | case1 location id st hcond arg_fun arg_list arg_trans st' hpp =>
    refine ⟨?_, ?_⟩
    · intro r rst heq st2
      simp [transform_expr, hcond.1, hcond.2.1, hcond.2.2, hpp] at heq
      obtain ⟨rfl, rfl⟩ := heq
      have Hfix := pp_arg_fun_fix st location arg_fun arg_trans st' hpp st2
      simp [transform_expr, Hfix]
    · intro hwf
      simp [transform_expr, hcond.1, hcond.2.1, hcond.2.2, hpp]
  | case2 location id args st hcond himp =>
    refine ⟨?_, ?_⟩
    · intro r rst heq st2
      rcases args with _ | ⟨a, _ | ⟨b, _ | ⟨c, cs⟩⟩⟩
      · simp [transform_expr, hcond.1, hcond.2.1, hcond.2.2] at heq
      · simp [transform_expr, hcond.1, hcond.2.1, hcond.2.2] at heq
      · exact (himp a b rfl).elim
      · simp [transform_expr, hcond.1, hcond.2.1, hcond.2.2] at heq
    · intro hwf
      have hlen : args.length = 2 := by
        simp only [wf_expr, Bool.and_eq_true, if_pos hcond, beq_iff_eq] at hwf
        exact hwf.1
      rcases args with _ | ⟨a, _ | ⟨b, _ | ⟨c, cs⟩⟩⟩
      · simp only [List.length_nil] at hlen
        omega
      · simp only [List.length_cons, List.length_nil] at hlen
        omega
      · exact (himp a b rfl).elim
      · simp only [List.length_cons] at hlen
        omega
  | case3 location id args st hnc r1 s1 h1 i1 =>
    refine ⟨?_, ?_⟩
    · intro r rst heq st2
      simp [transform_expr, hnc, h1] at heq
      obtain ⟨rfl, rfl⟩ := heq
      have H1 := i1.1 _ _ h1 st2
      simp [transform_expr, hnc, H1]
    · intro hwf
      simp [transform_expr, hnc, h1]
  | case4 location id args st hnc h1 i1 =>
    refine ⟨?_, ?_⟩
    · intro r rst heq st2
      simp [transform_expr, hnc, h1] at heq
    · intro hwf
      simp only [wf_expr, Bool.and_eq_true] at hwf
      have hx := i1.2 hwf.2
      rw [h1] at hx
      simp at hx
  | case5 location n st =>
    refine ⟨?_, ?_⟩
    · intro r rst heq st2
      simp only [transform_expr, Option.some.injEq, Prod.mk.injEq] at heq
      obtain ⟨rfl, rfl⟩ := heq
      simp [transform_expr]
    · intro hwf
      simp [transform_expr]
  | case6 location s st =>
    refine ⟨?_, ?_⟩
    · intro r rst heq st2
      simp only [transform_expr, Option.some.injEq, Prod.mk.injEq] at heq
      obtain ⟨rfl, rfl⟩ := heq
      simp [transform_expr]
    · intro hwf
      simp [transform_expr]
  | case7 location v st =>
    refine ⟨?_, ?_⟩
    · intro r rst heq st2
      simp only [transform_expr, Option.some.injEq, Prod.mk.injEq] at heq
      obtain ⟨rfl, rfl⟩ := heq
      simp [transform_expr]
    · intro hwf
      simp [transform_expr]
  | case8 location st =>
    refine ⟨?_, ?_⟩
    · intro r rst heq st2
      simp only [transform_expr, Option.some.injEq, Prod.mk.injEq] at heq
      obtain ⟨rfl, rfl⟩ := heq
      simp [transform_expr]
    · intro hwf
      simp [transform_expr]
  | case9 location body st r1 s1 h1 i1 =>
    refine ⟨?_, ?_⟩
    · intro r rst heq st2
      simp [transform_expr, h1] at heq
      obtain ⟨rfl, rfl⟩ := heq
      have H1 := i1.1 _ _ h1 st2
      simp [transform_expr, H1]
    · intro hwf
      simp [transform_expr, h1]
  | case10 location body st h1 i1 =>
    refine ⟨?_, ?_⟩
    · intro r rst heq st2
      simp [transform_expr, h1] at heq
    · intro hwf
      simp only [wf_expr] at hwf
      have hx := i1.2 hwf
      rw [h1] at hx
      simp at hx
  | case11 location pat expr st r1 s1 h1 i1 =>
    refine ⟨?_, ?_⟩
    · intro r rst heq st2
      simp [transform_expr, h1] at heq
      obtain ⟨rfl, rfl⟩ := heq
      have H1 := i1.1 _ _ h1 st2
      simp [transform_expr, H1]
    · intro hwf
      simp [transform_expr, h1]
  | case12 location pat expr st h1 i1 =>
    refine ⟨?_, ?_⟩
    · intro r rst heq st2
      simp [transform_expr, h1] at heq
    · intro hwf
      simp only [wf_expr] at hwf
      have hx := i1.2 hwf
      rw [h1] at hx
      simp at hx
  | case13 location elems st r1 s1 h1 i1 =>
    refine ⟨?_, ?_⟩
    · intro r rst heq st2
      simp [transform_expr, h1] at heq
      obtain ⟨rfl, rfl⟩ := heq
      have H1 := i1.1 _ _ h1 st2
      simp [transform_expr, H1]
    · intro hwf
      simp [transform_expr, h1]
  | case14 location elems st h1 i1 =>
    refine ⟨?_, ?_⟩
    · intro r rst heq st2
      simp [transform_expr, h1] at heq
    · intro hwf
      simp only [wf_expr] at hwf
      have hx := i1.2 hwf
      rw [h1] at hx
      simp at hx
  | case15 location empty st =>
    refine ⟨?_, ?_⟩
    · intro r rst heq st2
      simp only [transform_expr, Option.some.injEq, Prod.mk.injEq] at heq
      obtain ⟨rfl, rfl⟩ := heq
      simp [transform_expr]
    · intro hwf
      simp [transform_expr]
  | case16 location st =>
    refine ⟨?_, ?_⟩
    · intro r rst heq st2
      simp only [transform_expr, Option.some.injEq, Prod.mk.injEq] at heq
      obtain ⟨rfl, rfl⟩ := heq
      simp [transform_expr]
    · intro hwf
      simp [transform_expr]
  | case17 location hh tt st r1 s1 h1 r2 s2 h2 i1 i2 =>
    refine ⟨?_, ?_⟩
    · intro r rst heq st2
      simp [transform_expr, h1, h2] at heq
      obtain ⟨rfl, rfl⟩ := heq
      have H1 := i1.1 _ _ h1 st2
      have H2 := i2.1 _ _ h2 st2
      simp [transform_expr, H1, H2]
    · intro hwf
      simp [transform_expr, h1, h2]
  | case18 location hh tt st r1 s1 h1 h2 i1 i2 =>
    refine ⟨?_, ?_⟩
    · intro r rst heq st2
      simp [transform_expr, h1, h2] at heq
    · intro hwf
      simp only [wf_expr, Bool.and_eq_true] at hwf
      obtain ⟨-, hw2⟩ := hwf
      have hx := i2.2 hw2
      rw [h2] at hx
      simp at hx
  | case19 location hh tt st h1 i1 =>
    refine ⟨?_, ?_⟩
    · intro r rst heq st2
      simp [transform_expr, h1] at heq
    · intro hwf
      simp only [wf_expr, Bool.and_eq_true] at hwf
      obtain ⟨hw1, -⟩ := hwf
      have hx := i1.2 hw1
      rw [h1] at hx
      simp at hx
  | case20 location expr clauses st r1 s1 h1 r2 s2 h2 i1 i2 =>
    refine ⟨?_, ?_⟩
    · intro r rst heq st2
      simp [transform_expr, h1, h2] at heq
      obtain ⟨rfl, rfl⟩ := heq
      have H1 := i1.1 _ _ h1 st2
      have H2 := i2.1 _ _ h2 st2
      simp [transform_expr, H1, H2]
    · intro hwf
      simp [transform_expr, h1, h2]
  | case21 location expr clauses st r1 s1 h1 h2 i1 i2 =>
    refine ⟨?_, ?_⟩
    · intro r rst heq st2
      simp [transform_expr, h1, h2] at heq
    · intro hwf
      simp only [wf_expr, Bool.and_eq_true] at hwf
      obtain ⟨-, hw2⟩ := hwf
      have hx := i2.2 hw2
      rw [h2] at hx
      simp at hx
  | case22 location expr clauses st h1 i1 =>
    refine ⟨?_, ?_⟩
    · intro r rst heq st2
      simp [transform_expr, h1] at heq
    · intro hwf
      simp only [wf_expr, Bool.and_eq_true] at hwf
      obtain ⟨hw1, -⟩ := hwf
      have hx := i1.2 hw1
      rw [h1] at hx
      simp at hx
  | case23 location clauses st r1 s1 h1 i1 =>
    refine ⟨?_, ?_⟩
    · intro r rst heq st2
      simp [transform_expr, h1] at heq
      obtain ⟨rfl, rfl⟩ := heq
      have H1 := i1.1 _ _ h1 st2
      simp [transform_expr, H1]
    · intro hwf
      simp [transform_expr, h1]
  | case24 location clauses st h1 i1 =>
    refine ⟨?_, ?_⟩
    · intro r rst heq st2
      simp [transform_expr, h1] at heq
    · intro hwf
      simp only [wf_expr] at hwf
      have hx := i1.2 hwf
      rw [h1] at hx
      simp at hx
  | case25 location id args st r1 s1 h1 i1 =>
    refine ⟨?_, ?_⟩
    · intro r rst heq st2
      simp [transform_expr, h1] at heq
      obtain ⟨rfl, rfl⟩ := heq
      have H1 := i1.1 _ _ h1 st2
      simp [transform_expr, H1]
    · intro hwf
      simp [transform_expr, h1]
  | case26 location id args st h1 i1 =>
    refine ⟨?_, ?_⟩
    · intro r rst heq st2
      simp [transform_expr, h1] at heq
    · intro hwf
      simp only [wf_expr] at hwf
      have hx := i1.2 hwf
      rw [h1] at hx
      simp at hx
  | case27 location f args st r1 s1 h1 r2 s2 h2 i1 i2 =>
    refine ⟨?_, ?_⟩
    · intro r rst heq st2
      simp [transform_expr, h1, h2] at heq
      obtain ⟨rfl, rfl⟩ := heq
      have H1 := i1.1 _ _ h1 st2
      have H2 := i2.1 _ _ h2 st2
      simp [transform_expr, H1, H2]
    · intro hwf
      simp [transform_expr, h1, h2]
  | case28 location f args st r1 s1 h1 h2 i1 i2 =>
    refine ⟨?_, ?_⟩
    · intro r rst heq st2
      simp [transform_expr, h1, h2] at heq
    · intro hwf
      simp only [wf_expr, Bool.and_eq_true] at hwf
      obtain ⟨-, hw2⟩ := hwf
      have hx := i2.2 hw2
      rw [h2] at hx
      simp at hx
  | case29 location f args st h1 i1 =>
    refine ⟨?_, ?_⟩
    · intro r rst heq st2
      simp [transform_expr, h1] at heq
    · intro hwf
      simp only [wf_expr, Bool.and_eq_true] at hwf
      obtain ⟨hw1, -⟩ := hwf
      have hx := i1.2 hw1
      rw [h1] at hx
      simp at hx
  | case30 location id st =>
    refine ⟨?_, ?_⟩
    · intro r rst heq st2
      simp only [transform_expr, Option.some.injEq, Prod.mk.injEq] at heq
      obtain ⟨rfl, rfl⟩ := heq
      simp [transform_expr]
    · intro hwf
      simp [transform_expr]
  | case31 location id st =>
    refine ⟨?_, ?_⟩
    · intro r rst heq st2
      simp only [transform_expr, Option.some.injEq, Prod.mk.injEq] at heq
      obtain ⟨rfl, rfl⟩ := heq
      simp [transform_expr]
    · intro hwf
      simp [transform_expr]
  | case32 location module nm st r1 s1 h1 r2 s2 h2 i1 i2 =>
    refine ⟨?_, ?_⟩
    · intro r rst heq st2
      simp [transform_expr, h1, h2] at heq
      obtain ⟨rfl, rfl⟩ := heq
      have H1 := i1.1 _ _ h1 st2
      have H2 := i2.1 _ _ h2 st2
      simp [transform_expr, H1, H2]
    · intro hwf
      simp [transform_expr, h1, h2]
  | case33 location module nm st r1 s1 h1 h2 i1 i2 =>
    refine ⟨?_, ?_⟩
    · intro r rst heq st2
      simp [transform_expr, h1, h2] at heq
    · intro hwf
      simp only [wf_expr, Bool.and_eq_true] at hwf
      obtain ⟨-, hw2⟩ := hwf
      have hx := i2.2 hw2
      rw [h2] at hx
      simp at hx
  | case34 location module nm st h1 i1 =>
    refine ⟨?_, ?_⟩
    · intro r rst heq st2
      simp [transform_expr, h1] at heq
    · intro hwf
      simp only [wf_expr, Bool.and_eq_true] at hwf
      obtain ⟨hw1, -⟩ := hwf
      have hx := i1.2 hw1
      rw [h1] at hx
      simp at hx
  | case35 location module nm arity st r1 s1 h1 r2 s2 h2 r3 s3 h3 i1 i2 i3 =>
    refine ⟨?_, ?_⟩
    · intro r rst heq st2
      simp [transform_expr, h1, h2, h3] at heq
      obtain ⟨rfl, rfl⟩ := heq
      have H1 := i1.1 _ _ h1 st2
      have H2 := i2.1 _ _ h2 st2
      have H3 := i3.1 _ _ h3 st2
      simp [transform_expr, H1, H2, H3]
    · intro hwf
      simp [transform_expr, h1, h2, h3]
  | case36 location module nm arity st r1 s1 h1 r2 s2 h2 h3 i1 i2 i3 =>
    refine ⟨?_, ?_⟩
    · intro r rst heq st2
      simp [transform_expr, h1, h2, h3] at heq
    · intro hwf
      simp only [wf_expr, Bool.and_eq_true] at hwf
      obtain ⟨⟨-, -⟩, hw3⟩ := hwf
      have hx := i3.2 hw3
      rw [h3] at hx
      simp at hx
  | case37 location module nm arity st r1 s1 h1 h2 i1 i2 =>
    refine ⟨?_, ?_⟩
    · intro r rst heq st2
      simp [transform_expr, h1, h2] at heq
    · intro hwf
      simp only [wf_expr, Bool.and_eq_true] at hwf
      obtain ⟨⟨-, hw2⟩, -⟩ := hwf
      have hx := i2.2 hw2
      rw [h2] at hx
      simp at hx
  | case38 location module nm arity st h1 i1 =>
    refine ⟨?_, ?_⟩
    · intro r rst heq st2
      simp [transform_expr, h1] at heq
    · intro hwf
      simp only [wf_expr, Bool.and_eq_true] at hwf
      obtain ⟨⟨hw1, -⟩, -⟩ := hwf
      have hx := i1.2 hw1
      rw [h1] at hx
      simp at hx
  | case39 location clauses nm st r1 s1 h1 i1 =>
    refine ⟨?_, ?_⟩
    · intro r rst heq st2
      simp [transform_expr, h1] at heq
      obtain ⟨rfl, rfl⟩ := heq
      have H1 := i1.1 _ _ h1 st2
      simp [transform_expr, H1]
    · intro hwf
      simp [transform_expr, h1]
  | case40 location clauses nm st h1 i1 =>
    refine ⟨?_, ?_⟩
    · intro r rst heq st2
      simp [transform_expr, h1] at heq
    · intro hwf
      simp only [wf_expr] at hwf
      have hx := i1.2 hwf
      rw [h1] at hx
      simp at hx
  | case41 location op arg st r1 s1 h1 i1 =>
    refine ⟨?_, ?_⟩
    · intro r rst heq st2
      simp [transform_expr, h1] at heq
      obtain ⟨rfl, rfl⟩ := heq
      have H1 := i1.1 _ _ h1 st2
      simp [transform_expr, H1]
    · intro hwf
      simp [transform_expr, h1]
  | case42 location op arg st h1 i1 =>
    refine ⟨?_, ?_⟩
    · intro r rst heq st2
      simp [transform_expr, h1] at heq
    · intro hwf
      simp only [wf_expr] at hwf
      have hx := i1.2 hwf
      rw [h1] at hx
      simp at hx
  | case43 location op arg_1 arg_2 st r1 s1 h1 r2 s2 h2 i1 i2 =>
    refine ⟨?_, ?_⟩
    · intro r rst heq st2
      simp [transform_expr, h1, h2] at heq
      obtain ⟨rfl, rfl⟩ := heq
      have H1 := i1.1 _ _ h1 st2
      have H2 := i2.1 _ _ h2 st2
      simp [transform_expr, H1, H2]
    · intro hwf
      simp [transform_expr, h1, h2]
  | case44 location op arg_1 arg_2 st r1 s1 h1 h2 i1 i2 =>
    refine ⟨?_, ?_⟩
    · intro r rst heq st2
      simp [transform_expr, h1, h2] at heq
    · intro hwf
      simp only [wf_expr, Bool.and_eq_true] at hwf
      obtain ⟨-, hw2⟩ := hwf
      have hx := i2.2 hw2
      rw [h2] at hx
      simp at hx
  | case45 location op arg_1 arg_2 st h1 i1 =>
    refine ⟨?_, ?_⟩
    · intro r rst heq st2
      simp [transform_expr, h1] at heq
    · intro hwf
      simp only [wf_expr, Bool.and_eq_true] at hwf
      obtain ⟨hw1, -⟩ := hwf
      have hx := i1.2 hw1
      rw [h1] at hx
      simp at hx
  | case46 location template qualifiers st r1 s1 h1 r2 s2 h2 i1 i2 =>
    refine ⟨?_, ?_⟩
    · intro r rst heq st2
      simp [transform_expr, h1, h2] at heq
      obtain ⟨rfl, rfl⟩ := heq
      have H1 := i1.1 _ _ h1 st2
      have H2 := i2.1 _ _ h2 st2
      simp [transform_expr, H1, H2]
    · intro hwf
      simp [transform_expr, h1, h2]
  | case47 location template qualifiers st r1 s1 h1 h2 i1 i2 =>
    refine ⟨?_, ?_⟩
    · intro r rst heq st2
      simp [transform_expr, h1, h2] at heq
    · intro hwf
      simp only [wf_expr, Bool.and_eq_true] at hwf
      obtain ⟨-, hw2⟩ := hwf
      have hx := i2.2 hw2
      rw [h2] at hx
      simp at hx
  | case48 location template qualifiers st h1 i1 =>
    refine ⟨?_, ?_⟩
    · intro r rst heq st2
      simp [transform_expr, h1] at heq
    · intro hwf
      simp only [wf_expr, Bool.and_eq_true] at hwf
      obtain ⟨hw1, -⟩ := hwf
      have hx := i1.2 hw1
      rw [h1] at hx
      simp at hx
  | case49 location template qualifiers st r1 s1 h1 r2 s2 h2 i1 i2 =>
    refine ⟨?_, ?_⟩
    · intro r rst heq st2
      simp [transform_expr, h1, h2] at heq
      obtain ⟨rfl, rfl⟩ := heq
      have H1 := i1.1 _ _ h1 st2
      have H2 := i2.1 _ _ h2 st2
      simp [transform_expr, H1, H2]
    · intro hwf
      simp [transform_expr, h1, h2]
  | case50 location template qualifiers st r1 s1 h1 h2 i1 i2 =>
    refine ⟨?_, ?_⟩
    · intro r rst heq st2
      simp [transform_expr, h1, h2] at heq
    · intro hwf
      simp only [wf_expr, Bool.and_eq_true] at hwf
      obtain ⟨-, hw2⟩ := hwf
      have hx := i2.2 hw2
      rw [h2] at hx
      simp at hx
  | case51 location template qualifiers st h1 i1 =>
    refine ⟨?_, ?_⟩
    · intro r rst heq st2
      simp [transform_expr, h1] at heq
    · intro hwf
      simp only [wf_expr, Bool.and_eq_true] at hwf
      obtain ⟨hw1, -⟩ := hwf
      have hx := i1.2 hw1
      rw [h1] at hx
      simp at hx
  | case52 location k_template v_template qualifiers st r1 s1 h1 r2 s2 h2 r3 s3 h3 i1 i2 i3 =>
    refine ⟨?_, ?_⟩
    · intro r rst heq st2
      simp [transform_expr, h1, h2, h3] at heq
      obtain ⟨rfl, rfl⟩ := heq
      have H1 := i1.1 _ _ h1 st2
      have H2 := i2.1 _ _ h2 st2
      have H3 := i3.1 _ _ h3 st2
      simp [transform_expr, H1, H2, H3]
    · intro hwf
      simp [transform_expr, h1, h2, h3]
  | case53 location k_template v_template qualifiers st r1 s1 h1 r2 s2 h2 h3 i1 i2 i3 =>
    refine ⟨?_, ?_⟩
    · intro r rst heq st2
      simp [transform_expr, h1, h2, h3] at heq
    · intro hwf
      simp only [wf_expr, Bool.and_eq_true] at hwf
      obtain ⟨⟨-, -⟩, hw3⟩ := hwf
      have hx := i3.2 hw3
      rw [h3] at hx
      simp at hx
  | case54 location k_template v_template qualifiers st r1 s1 h1 h2 i1 i2 =>
    refine ⟨?_, ?_⟩
    · intro r rst heq st2
      simp [transform_expr, h1, h2] at heq
    · intro hwf
      simp only [wf_expr, Bool.and_eq_true] at hwf
      obtain ⟨⟨-, hw2⟩, -⟩ := hwf
      have hx := i2.2 hw2
      rw [h2] at hx
      simp at hx
  | case55 location k_template v_template qualifiers st h1 i1 =>
    refine ⟨?_, ?_⟩
    · intro r rst heq st2
      simp [transform_expr, h1] at heq
    · intro hwf
      simp only [wf_expr, Bool.and_eq_true] at hwf
      obtain ⟨⟨hw1, -⟩, -⟩ := hwf
      have hx := i1.2 hw1
      rw [h1] at hx
      simp at hx
  | case56 location elems st r1 s1 h1 i1 =>
    refine ⟨?_, ?_⟩
    · intro r rst heq st2
      simp [transform_expr, h1] at heq
      obtain ⟨rfl, rfl⟩ := heq
      have H1 := i1.1 _ _ h1 st2
      simp [transform_expr, H1]
    · intro hwf
      simp [transform_expr, h1]
  | case57 location elems st h1 i1 =>
    refine ⟨?_, ?_⟩
    · intro r rst heq st2
      simp [transform_expr, h1] at heq
    · intro hwf
      simp only [wf_expr] at hwf
      have hx := i1.2 hwf
      rw [h1] at hx
      simp at hx
  | case58 location expr st r1 s1 h1 i1 =>
    refine ⟨?_, ?_⟩
    · intro r rst heq st2
      simp [transform_expr, h1] at heq
      obtain ⟨rfl, rfl⟩ := heq
      have H1 := i1.1 _ _ h1 st2
      simp [transform_expr, H1]
    · intro hwf
      simp [transform_expr, h1]
  | case59 location expr st h1 i1 =>
    refine ⟨?_, ?_⟩
    · intro r rst heq st2
      simp [transform_expr, h1] at heq
    · intro hwf
      simp only [wf_expr] at hwf
      have hx := i1.2 hwf
      rw [h1] at hx
      simp at hx
  | case60 location try_body catch_clauses after_body st r1 s1 h1 r2 s2 h2 r3 s3 h3 i1 i2 i3 =>
    refine ⟨?_, ?_⟩
    · intro r rst heq st2
      simp [transform_expr, h1, h2, h3] at heq
      obtain ⟨rfl, rfl⟩ := heq
      have H1 := i1.1 _ _ h1 st2
      have H2 := i2.1 _ _ h2 st2
      have H3 := i3.1 _ _ h3 st2
      simp [transform_expr, H1, H2, H3]
    · intro hwf
      simp [transform_expr, h1, h2, h3]
  | case61 location try_body catch_clauses after_body st r1 s1 h1 r2 s2 h2 h3 i1 i2 i3 =>
    refine ⟨?_, ?_⟩
    · intro r rst heq st2
      simp [transform_expr, h1, h2, h3] at heq
    · intro hwf
      simp only [wf_expr, Bool.and_eq_true] at hwf
      obtain ⟨⟨-, -⟩, hw3⟩ := hwf
      have hx := i3.2 hw3
      rw [h3] at hx
      simp at hx
  | case62 location try_body catch_clauses after_body st r1 s1 h1 h2 i1 i2 =>
    refine ⟨?_, ?_⟩
    · intro r rst heq st2
      simp [transform_expr, h1, h2] at heq
    · intro hwf
      simp only [wf_expr, Bool.and_eq_true] at hwf
      obtain ⟨⟨-, hw2⟩, -⟩ := hwf
      have hx := i2.2 hw2
      rw [h2] at hx
      simp at hx
  | case63 location try_body catch_clauses after_body st h1 i1 =>
    refine ⟨?_, ?_⟩
    · intro r rst heq st2
      simp [transform_expr, h1] at heq
    · intro hwf
      simp only [wf_expr, Bool.and_eq_true] at hwf
      obtain ⟨⟨hw1, -⟩, -⟩ := hwf
      have hx := i1.2 hw1
      rw [h1] at hx
      simp at hx
  | case64 location try_body try_clauses catch_clauses after_body st r1 s1 h1 r2 s2 h2 r3 s3 h3 r4 s4 h4 i1 i2 i3 i4 =>
    refine ⟨?_, ?_⟩
    · intro r rst heq st2
      simp [transform_expr, h1, h2, h3, h4] at heq
      obtain ⟨rfl, rfl⟩ := heq
      have H1 := i1.1 _ _ h1 st2
      have H2 := i2.1 _ _ h2 st2
      have H3 := i3.1 _ _ h3 st2
      have H4 := i4.1 _ _ h4 st2
      simp [transform_expr, H1, H2, H3, H4]
    · intro hwf
      simp [transform_expr, h1, h2, h3, h4]
  | case65 location try_body try_clauses catch_clauses after_body st r1 s1 h1 r2 s2 h2 r3 s3 h3 h4 i1 i2 i3 i4 =>
    refine ⟨?_, ?_⟩
    · intro r rst heq st2
      simp [transform_expr, h1, h2, h3, h4] at heq
    · intro hwf
      simp only [wf_expr, Bool.and_eq_true] at hwf
      obtain ⟨⟨⟨-, -⟩, -⟩, hw4⟩ := hwf
      have hx := i4.2 hw4
      rw [h4] at hx
      simp at hx
  | case66 location try_body try_clauses catch_clauses after_body st r1 s1 h1 r2 s2 h2 h3 i1 i2 i3 =>
    refine ⟨?_, ?_⟩
    · intro r rst heq st2
      simp [transform_expr, h1, h2, h3] at heq
    · intro hwf
      simp only [wf_expr, Bool.and_eq_true] at hwf
      obtain ⟨⟨⟨-, -⟩, hw3⟩, -⟩ := hwf
      have hx := i3.2 hw3
      rw [h3] at hx
      simp at hx
  | case67 location try_body try_clauses catch_clauses after_body st r1 s1 h1 h2 i1 i2 =>
    refine ⟨?_, ?_⟩
    · intro r rst heq st2
      simp [transform_expr, h1, h2] at heq
    · intro hwf
      simp only [wf_expr, Bool.and_eq_true] at hwf
      obtain ⟨⟨⟨-, hw2⟩, -⟩, -⟩ := hwf
      have hx := i2.2 hw2
      rw [h2] at hx
      simp at hx
  | case68 location try_body try_clauses catch_clauses after_body st h1 i1 =>
    refine ⟨?_, ?_⟩
    · intro r rst heq st2
      simp [transform_expr, h1] at heq
    · intro hwf
      simp only [wf_expr, Bool.and_eq_true] at hwf
      obtain ⟨⟨⟨hw1, -⟩, -⟩, -⟩ := hwf
      have hx := i1.2 hw1
      rw [h1] at hx
      simp at hx
  | case69 location clauses st r1 s1 h1 i1 =>
    refine ⟨?_, ?_⟩
    · intro r rst heq st2
      simp [transform_expr, h1] at heq
      obtain ⟨rfl, rfl⟩ := heq
      have H1 := i1.1 _ _ h1 st2
      simp [transform_expr, H1]
    · intro hwf
      simp [transform_expr, h1]
  | case70 location clauses st h1 i1 =>
    refine ⟨?_, ?_⟩
    · intro r rst heq st2
      simp [transform_expr, h1] at heq
    · intro hwf
      simp only [wf_expr] at hwf
      have hx := i1.2 hwf
      rw [h1] at hx
      simp at hx
  | case71 location clauses timeout timeout_body st r1 s1 h1 r2 s2 h2 r3 s3 h3 i1 i2 i3 =>
    refine ⟨?_, ?_⟩
    · intro r rst heq st2
      simp [transform_expr, h1, h2, h3] at heq
      obtain ⟨rfl, rfl⟩ := heq
      have H1 := i1.1 _ _ h1 st2
      have H2 := i2.1 _ _ h2 st2
      have H3 := i3.1 _ _ h3 st2
      simp [transform_expr, H1, H2, H3]
    · intro hwf
      simp [transform_expr, h1, h2, h3]
  | case72 location clauses timeout timeout_body st r1 s1 h1 r2 s2 h2 h3 i1 i2 i3 =>
    refine ⟨?_, ?_⟩
    · intro r rst heq st2
      simp [transform_expr, h1, h2, h3] at heq
    · intro hwf
      simp only [wf_expr, Bool.and_eq_true] at hwf
      obtain ⟨⟨-, -⟩, hw3⟩ := hwf
      have hx := i3.2 hw3
      rw [h3] at hx
      simp at hx
  | case73 location clauses timeout timeout_body st r1 s1 h1 h2 i1 i2 =>
    refine ⟨?_, ?_⟩
    · intro r rst heq st2
      simp [transform_expr, h1, h2] at heq
    · intro hwf
      simp only [wf_expr, Bool.and_eq_true] at hwf
      obtain ⟨⟨-, hw2⟩, -⟩ := hwf
      have hx := i2.2 hw2
      rw [h2] at hx
      simp at hx
  | case74 location clauses timeout timeout_body st h1 i1 =>
    refine ⟨?_, ?_⟩
    · intro r rst heq st2
      simp [transform_expr, h1] at heq
    · intro hwf
      simp only [wf_expr, Bool.and_eq_true] at hwf
      obtain ⟨⟨hw1, -⟩, -⟩ := hwf
      have hx := i1.2 hw1
      rw [h1] at hx
      simp at hx
  | case75 location rec_name fields st r1 s1 h1 i1 =>
    refine ⟨?_, ?_⟩
    · intro r rst heq st2
      simp [transform_expr, h1] at heq
      obtain ⟨rfl, rfl⟩ := heq
      have H1 := i1.1 _ _ h1 st2
      simp [transform_expr, H1]
    · intro hwf
      simp [transform_expr, h1]
  | case76 location rec_name fields st h1 i1 =>
    refine ⟨?_, ?_⟩
    · intro r rst heq st2
      simp [transform_expr, h1] at heq
    · intro hwf
      simp only [wf_expr] at hwf
      have hx := i1.2 hwf
      rw [h1] at hx
      simp at hx
  | case77 location expr rec_name fields st r1 s1 h1 r2 s2 h2 i1 i2 =>
    refine ⟨?_, ?_⟩
    · intro r rst heq st2
      simp [transform_expr, h1, h2] at heq
      obtain ⟨rfl, rfl⟩ := heq
      have H1 := i1.1 _ _ h1 st2
      have H2 := i2.1 _ _ h2 st2
      simp [transform_expr, H1, H2]
    · intro hwf
      simp [transform_expr, h1, h2]
  | case78 location expr rec_name fields st r1 s1 h1 h2 i1 i2 =>
    refine ⟨?_, ?_⟩
    · intro r rst heq st2
      simp [transform_expr, h1, h2] at heq
    · intro hwf
      simp only [wf_expr, Bool.and_eq_true] at hwf
      obtain ⟨-, hw2⟩ := hwf
      have hx := i2.2 hw2
      rw [h2] at hx
      simp at hx
  | case79 location expr rec_name fields st h1 i1 =>
    refine ⟨?_, ?_⟩
    · intro r rst heq st2
      simp [transform_expr, h1] at heq
    · intro hwf
      simp only [wf_expr, Bool.and_eq_true] at hwf
      obtain ⟨hw1, -⟩ := hwf
      have hx := i1.2 hw1
      rw [h1] at hx
      simp at hx
  | case80 location expr rec_name field_name st r1 s1 h1 i1 =>
    refine ⟨?_, ?_⟩
    · intro r rst heq st2
      simp [transform_expr, h1] at heq
      obtain ⟨rfl, rfl⟩ := heq
      have H1 := i1.1 _ _ h1 st2
      simp [transform_expr, H1]
    · intro hwf
      simp [transform_expr, h1]
  | case81 location expr rec_name field_name st h1 i1 =>
    refine ⟨?_, ?_⟩
    · intro r rst heq st2
      simp [transform_expr, h1] at heq
    · intro hwf
      simp only [wf_expr] at hwf
      have hx := i1.2 hwf
      rw [h1] at hx
      simp at hx
  | case82 location rec_name field_name st =>
    refine ⟨?_, ?_⟩
    · intro r rst heq st2
      simp only [transform_expr, Option.some.injEq, Prod.mk.injEq] at heq
      obtain ⟨rfl, rfl⟩ := heq
      simp [transform_expr]
    · intro hwf
      simp [transform_expr]
  | case83 location kvs st r1 s1 h1 i1 =>
    refine ⟨?_, ?_⟩
    · intro r rst heq st2
      simp [transform_expr, h1] at heq
      obtain ⟨rfl, rfl⟩ := heq
      have H1 := i1.1 _ _ h1 st2
      simp [transform_expr, H1]
    · intro hwf
      simp [transform_expr, h1]
  | case84 location kvs st h1 i1 =>
    refine ⟨?_, ?_⟩
    · intro r rst heq st2
      simp [transform_expr, h1] at heq
    · intro hwf
      simp only [wf_expr] at hwf
      have hx := i1.2 hwf
      rw [h1] at hx
      simp at hx
  | case85 location mp kvs st r1 s1 h1 r2 s2 h2 i1 i2 =>
    refine ⟨?_, ?_⟩
    · intro r rst heq st2
      simp [transform_expr, h1, h2] at heq
      obtain ⟨rfl, rfl⟩ := heq
      have H1 := i1.1 _ _ h1 st2
      have H2 := i2.1 _ _ h2 st2
      simp [transform_expr, H1, H2]
    · intro hwf
      simp [transform_expr, h1, h2]
  | case86 location mp kvs st r1 s1 h1 h2 i1 i2 =>
    refine ⟨?_, ?_⟩
    · intro r rst heq st2
      simp [transform_expr, h1, h2] at heq
    · intro hwf
      simp only [wf_expr, Bool.and_eq_true] at hwf
      obtain ⟨-, hw2⟩ := hwf
      have hx := i2.2 hw2
      rw [h2] at hx
      simp at hx
  | case87 location mp kvs st h1 i1 =>
    refine ⟨?_, ?_⟩
    · intro r rst heq st2
      simp [transform_expr, h1] at heq
    · intro hwf
      simp only [wf_expr, Bool.and_eq_true] at hwf
      obtain ⟨hw1, -⟩ := hwf
      have hx := i1.2 hw1
      rw [h1] at hx
      simp at hx
  | case88 location body st r1 s1 h1 i1 =>
    refine ⟨?_, ?_⟩
    · intro r rst heq st2
      simp [transform_expr, h1] at heq
      obtain ⟨rfl, rfl⟩ := heq
      have H1 := i1.1 _ _ h1 st2
      simp [transform_expr, H1]
    · intro hwf
      simp [transform_expr, h1]
  | case89 location body st h1 i1 =>
    refine ⟨?_, ?_⟩
    · intro r rst heq st2
      simp [transform_expr, h1] at heq
    · intro hwf
      simp only [wf_expr] at hwf
      have hx := i1.2 hwf
      rw [h1] at hx
      simp at hx
  | case90 location body else_clauses st r1 s1 h1 r2 s2 h2 i1 i2 =>
    refine ⟨?_, ?_⟩
    · intro r rst heq st2
      simp [transform_expr, h1, h2] at heq
      obtain ⟨rfl, rfl⟩ := heq
      have H1 := i1.1 _ _ h1 st2
      have H2 := i2.1 _ _ h2 st2
      simp [transform_expr, H1, H2]
    · intro hwf
      simp [transform_expr, h1, h2]
  | case91 location body else_clauses st r1 s1 h1 h2 i1 i2 =>
    refine ⟨?_, ?_⟩
    · intro r rst heq st2
      simp [transform_expr, h1, h2] at heq
    · intro hwf
      simp only [wf_expr, Bool.and_eq_true] at hwf
      obtain ⟨-, hw2⟩ := hwf
      have hx := i2.2 hw2
      rw [h2] at hx
      simp at hx
  | case92 location body else_clauses st h1 i1 =>
    refine ⟨?_, ?_⟩
    · intro r rst heq st2
      simp [transform_expr, h1] at heq
    · intro hwf
      simp only [wf_expr, Bool.and_eq_true] at hwf
      obtain ⟨hw1, -⟩ := hwf
      have hx := i1.2 hw1
      rw [h1] at hx
      simp at hx
  | case93 location pat arg st r1 s1 h1 i1 =>
    refine ⟨?_, ?_⟩
    · intro r rst heq st2
      simp [transform_expr, h1] at heq
      obtain ⟨rfl, rfl⟩ := heq
      have H1 := i1.1 _ _ h1 st2
      simp [transform_expr, H1]
    · intro hwf
      simp [transform_expr, h1]
  | case94 location pat arg st h1 i1 =>
    refine ⟨?_, ?_⟩
    · intro r rst heq st2
      simp [transform_expr, h1] at heq
    · intro hwf
      simp only [wf_expr] at hwf
      have hx := i1.2 hwf
      rw [h1] at hx
      simp at hx
  | case95 exprs st r1 s1 h1 i1 =>
    refine ⟨?_, ?_⟩
    · intro r rst heq st2
      simp [transform_body, h1] at heq
      obtain ⟨rfl, rfl⟩ := heq
      have H1 := i1.1 _ _ h1 st2
      simp [transform_body, H1]
    · intro hwf
      simp [transform_body, h1]
  | case96 exprs st h1 i1 =>
    refine ⟨?_, ?_⟩
    · intro r rst heq st2
      simp [transform_body, h1] at heq
    · intro hwf
      simp only [wf_body] at hwf
      have hx := i1.2 hwf
      rw [h1] at hx
      simp at hx
  | case97 location pats guards body st r1 s1 h1 i1 =>
    refine ⟨?_, ?_⟩
    · intro r rst heq st2
      simp [transform_clause, h1] at heq
      obtain ⟨rfl, rfl⟩ := heq
      have H1 := i1.1 _ _ h1 st2
      simp [transform_clause, H1]
    · intro hwf
      simp [transform_clause, h1]
  | case98 location pats guards body st h1 i1 =>
    refine ⟨?_, ?_⟩
    · intro r rst heq st2
      simp [transform_clause, h1] at heq
    · intro hwf
      simp only [wf_clause] at hwf
      have hx := i1.2 hwf
      rw [h1] at hx
      simp at hx
  | case99 pat expr st r1 s1 h1 i1 =>
    refine ⟨?_, ?_⟩
    · intro r rst heq st2
      simp [transform_qualifier, h1] at heq
      obtain ⟨rfl, rfl⟩ := heq
      have H1 := i1.1 _ _ h1 st2
      simp [transform_qualifier, H1]
    · intro hwf
      simp [transform_qualifier, h1]
  | case100 pat expr st h1 i1 =>
    refine ⟨?_, ?_⟩
    · intro r rst heq st2
      simp [transform_qualifier, h1] at heq
    · intro hwf
      simp only [wf_qualifier] at hwf
      have hx := i1.2 hwf
      rw [h1] at hx
      simp at hx
  | case101 pat expr st r1 s1 h1 i1 =>
    refine ⟨?_, ?_⟩
    · intro r rst heq st2
      simp [transform_qualifier, h1] at heq
      obtain ⟨rfl, rfl⟩ := heq
      have H1 := i1.1 _ _ h1 st2
      simp [transform_qualifier, H1]
    · intro hwf
      simp [transform_qualifier, h1]
  | case102 pat expr st h1 i1 =>
    refine ⟨?_, ?_⟩
    · intro r rst heq st2
      simp [transform_qualifier, h1] at heq
    · intro hwf
      simp only [wf_qualifier] at hwf
      have hx := i1.2 hwf
      rw [h1] at hx
      simp at hx
  | case103 k_pat v_pat expr st r1 s1 h1 i1 =>
    refine ⟨?_, ?_⟩
    · intro r rst heq st2
      simp [transform_qualifier, h1] at heq
      obtain ⟨rfl, rfl⟩ := heq
      have H1 := i1.1 _ _ h1 st2
      simp [transform_qualifier, H1]
    · intro hwf
      simp [transform_qualifier, h1]
  | case104 k_pat v_pat expr st h1 i1 =>
    refine ⟨?_, ?_⟩
    · intro r rst heq st2
      simp [transform_qualifier, h1] at heq
    · intro hwf
      simp only [wf_qualifier] at hwf
      have hx := i1.2 hwf
      rw [h1] at hx
      simp at hx
  | case105 expr st r1 s1 h1 i1 =>
    refine ⟨?_, ?_⟩
    · intro r rst heq st2
      simp [transform_qualifier, h1] at heq
      obtain ⟨rfl, rfl⟩ := heq
      have H1 := i1.1 _ _ h1 st2
      simp [transform_qualifier, H1]
    · intro hwf
      simp [transform_qualifier, h1]
  | case106 expr st h1 i1 =>
    refine ⟨?_, ?_⟩
    · intro r rst heq st2
      simp [transform_qualifier, h1] at heq
    · intro hwf
      simp only [wf_qualifier] at hwf
      have hx := i1.2 hwf
      rw [h1] at hx
      simp at hx
  | case107 location expr size specifier st r1 s1 h1 r2 s2 h2 i1 i2 =>
    refine ⟨?_, ?_⟩
    · intro r rst heq st2
      simp [transform_belem, h1, h2] at heq
      obtain ⟨rfl, rfl⟩ := heq
      have H1 := i1.1 _ _ h1 st2
      have H2 := i2.1 _ _ h2 st2
      simp [transform_belem, H1, H2]
    · intro hwf
      simp [transform_belem, h1, h2]
  | case108 location expr size specifier st r1 s1 h1 h2 i1 i2 =>
    refine ⟨?_, ?_⟩
    · intro r rst heq st2
      simp [transform_belem, h1, h2] at heq
    · intro hwf
      simp only [wf_belem, Bool.and_eq_true] at hwf
      obtain ⟨-, hw2⟩ := hwf
      have hx := i2.2 hw2
      rw [h2] at hx
      simp at hx
  | case109 location expr size specifier st h1 i1 =>
    refine ⟨?_, ?_⟩
    · intro r rst heq st2
      simp [transform_belem, h1] at heq
    · intro hwf
      simp only [wf_belem, Bool.and_eq_true] at hwf
      obtain ⟨hw1, -⟩ := hwf
      have hx := i1.2 hw1
      rw [h1] at hx
      simp at hx
  | case110 nm value st r1 s1 h1 i1 =>
    refine ⟨?_, ?_⟩
    · intro r rst heq st2
      simp [transform_rfield, h1] at heq
      obtain ⟨rfl, rfl⟩ := heq
      have H1 := i1.1 _ _ h1 st2
      simp [transform_rfield, H1]
    · intro hwf
      simp [transform_rfield, h1]
  | case111 nm value st h1 i1 =>
    refine ⟨?_, ?_⟩
    · intro r rst heq st2
      simp [transform_rfield, h1] at heq
    · intro hwf
      simp only [wf_rfield] at hwf
      have hx := i1.2 hwf
      rw [h1] at hx
      simp at hx
  | case112 value st r1 s1 h1 i1 =>
    refine ⟨?_, ?_⟩
    · intro r rst heq st2
      simp [transform_rfield, h1] at heq
      obtain ⟨rfl, rfl⟩ := heq
      have H1 := i1.1 _ _ h1 st2
      simp [transform_rfield, H1]
    · intro hwf
      simp [transform_rfield, h1]
  | case113 value st h1 i1 =>
    refine ⟨?_, ?_⟩
    · intro r rst heq st2
      simp [transform_rfield, h1] at heq
    · intro hwf
      simp only [wf_rfield] at hwf
      have hx := i1.2 hwf
      rw [h1] at hx
      simp at hx
  | case114 nm value st r1 s1 h1 i1 =>
    refine ⟨?_, ?_⟩
    · intro r rst heq st2
      simp [transform_rfnamed, h1] at heq
      obtain ⟨rfl, rfl⟩ := heq
      have H1 := i1.1 _ _ h1 st2
      simp [transform_rfnamed, H1]
    · intro hwf
      simp [transform_rfnamed, h1]
  | case115 nm value st h1 i1 =>
    refine ⟨?_, ?_⟩
    · intro r rst heq st2
      simp [transform_rfnamed, h1] at heq
    · intro hwf
      simp only [wf_rfnamed] at hwf
      have hx := i1.2 hwf
      rw [h1] at hx
      simp at hx
  | case116 st =>
    refine ⟨?_, ?_⟩
    · intro r rst heq st2
      simp only [transform_exprs, Option.some.injEq, Prod.mk.injEq] at heq
      obtain ⟨rfl, rfl⟩ := heq
      simp [transform_exprs]
    · intro hwf
      simp [transform_exprs]
  | case117 e es st r1 s1 h1 r2 s2 h2 i1 i2 =>
    refine ⟨?_, ?_⟩
    · intro r rst heq st2
      simp [transform_exprs, h1, h2] at heq
      obtain ⟨rfl, rfl⟩ := heq
      have H1 := i1.1 _ _ h1 st2
      have H2 := i2.1 _ _ h2 st2
      simp [transform_exprs, H1, H2]
    · intro hwf
      simp [transform_exprs, h1, h2]
  | case118 e es st r1 s1 h1 h2 i1 i2 =>
    refine ⟨?_, ?_⟩
    · intro r rst heq st2
      simp [transform_exprs, h1, h2] at heq
    · intro hwf
      simp only [wf_exprs, Bool.and_eq_true] at hwf
      obtain ⟨-, hw2⟩ := hwf
      have hx := i2.2 hw2
      rw [h2] at hx
      simp at hx
  | case119 e es st h1 i1 =>
    refine ⟨?_, ?_⟩
    · intro r rst heq st2
      simp [transform_exprs, h1] at heq
    · intro hwf
      simp only [wf_exprs, Bool.and_eq_true] at hwf
      obtain ⟨hw1, -⟩ := hwf
      have hx := i1.2 hw1
      rw [h1] at hx
      simp at hx
  | case120 st =>
    refine ⟨?_, ?_⟩
    · intro r rst heq st2
      simp only [transform_clauses, Option.some.injEq, Prod.mk.injEq] at heq
      obtain ⟨rfl, rfl⟩ := heq
      simp [transform_clauses]
    · intro hwf
      simp [transform_clauses]
  | case121 c cs st r1 s1 h1 r2 s2 h2 i1 i2 =>
    refine ⟨?_, ?_⟩
    · intro r rst heq st2
      simp [transform_clauses, h1, h2] at heq
      obtain ⟨rfl, rfl⟩ := heq
      have H1 := i1.1 _ _ h1 st2
      have H2 := i2.1 _ _ h2 st2
      simp [transform_clauses, H1, H2]
    · intro hwf
      simp [transform_clauses, h1, h2]
  | case122 c cs st r1 s1 h1 h2 i1 i2 =>
    refine ⟨?_, ?_⟩
    · intro r rst heq st2
      simp [transform_clauses, h1, h2] at heq
    · intro hwf
      simp only [wf_clauses, Bool.and_eq_true] at hwf
      obtain ⟨-, hw2⟩ := hwf
      have hx := i2.2 hw2
      rw [h2] at hx
      simp at hx
  | case123 c cs st h1 i1 =>
    refine ⟨?_, ?_⟩
    · intro r rst heq st2
      simp [transform_clauses, h1] at heq
    · intro hwf
      simp only [wf_clauses, Bool.and_eq_true] at hwf
      obtain ⟨hw1, -⟩ := hwf
      have hx := i1.2 hw1
      rw [h1] at hx
      simp at hx
  | case124 st =>
    refine ⟨?_, ?_⟩
    · intro r rst heq st2
      simp only [transform_qualifiers, Option.some.injEq, Prod.mk.injEq] at heq
      obtain ⟨rfl, rfl⟩ := heq
      simp [transform_qualifiers]
    · intro hwf
      simp [transform_qualifiers]
  | case125 q qs st r1 s1 h1 r2 s2 h2 i1 i2 =>
    refine ⟨?_, ?_⟩
    · intro r rst heq st2
      simp [transform_qualifiers, h1, h2] at heq
      obtain ⟨rfl, rfl⟩ := heq
      have H1 := i1.1 _ _ h1 st2
      have H2 := i2.1 _ _ h2 st2
      simp [transform_qualifiers, H1, H2]
    · intro hwf
      simp [transform_qualifiers, h1, h2]
  | case126 q qs st r1 s1 h1 h2 i1 i2 =>
    refine ⟨?_, ?_⟩
    · intro r rst heq st2
      simp [transform_qualifiers, h1, h2] at heq
    · intro hwf
      simp only [wf_qualifiers, Bool.and_eq_true] at hwf
      obtain ⟨-, hw2⟩ := hwf
      have hx := i2.2 hw2
      rw [h2] at hx
      simp at hx
  | case127 q qs st h1 i1 =>
    refine ⟨?_, ?_⟩
    · intro r rst heq st2
      simp [transform_qualifiers, h1] at heq
    · intro hwf
      simp only [wf_qualifiers, Bool.and_eq_true] at hwf
      obtain ⟨hw1, -⟩ := hwf
      have hx := i1.2 hw1
      rw [h1] at hx
      simp at hx
  | case128 st =>
    refine ⟨?_, ?_⟩
    · intro r rst heq st2
      simp only [transform_belems, Option.some.injEq, Prod.mk.injEq] at heq
      obtain ⟨rfl, rfl⟩ := heq
      simp [transform_belems]
    · intro hwf
      simp [transform_belems]
  | case129 b bs st r1 s1 h1 r2 s2 h2 i1 i2 =>
    refine ⟨?_, ?_⟩
    · intro r rst heq st2
      simp [transform_belems, h1, h2] at heq
      obtain ⟨rfl, rfl⟩ := heq
      have H1 := i1.1 _ _ h1 st2
      have H2 := i2.1 _ _ h2 st2
      simp [transform_belems, H1, H2]
    · intro hwf
      simp [transform_belems, h1, h2]
  | case130 b bs st r1 s1 h1 h2 i1 i2 =>
    refine ⟨?_, ?_⟩
    · intro r rst heq st2
      simp [transform_belems, h1, h2] at heq
    · intro hwf
      simp only [wf_belems, Bool.and_eq_true] at hwf
      obtain ⟨-, hw2⟩ := hwf
      have hx := i2.2 hw2
      rw [h2] at hx
      simp at hx
  | case131 b bs st h1 i1 =>
    refine ⟨?_, ?_⟩
    · intro r rst heq st2
      simp [transform_belems, h1] at heq
    · intro hwf
      simp only [wf_belems, Bool.and_eq_true] at hwf
      obtain ⟨hw1, -⟩ := hwf
      have hx := i1.2 hw1
      rw [h1] at hx
      simp at hx
  | case132 st =>
    refine ⟨?_, ?_⟩
    · intro r rst heq st2
      simp only [transform_obody, Option.some.injEq, Prod.mk.injEq] at heq
      obtain ⟨rfl, rfl⟩ := heq
      simp [transform_obody]
    · intro hwf
      simp [transform_obody]
  | case133 body st r1 s1 h1 i1 =>
    refine ⟨?_, ?_⟩
    · intro r rst heq st2
      simp [transform_obody, h1] at heq
      obtain ⟨rfl, rfl⟩ := heq
      have H1 := i1.1 _ _ h1 st2
      simp [transform_obody, H1]
    · intro hwf
      simp [transform_obody, h1]
  | case134 body st h1 i1 =>
    refine ⟨?_, ?_⟩
    · intro r rst heq st2
      simp [transform_obody, h1] at heq
    · intro hwf
      simp only [wf_obody] at hwf
      have hx := i1.2 hwf
      rw [h1] at hx
      simp at hx
  | case135 st =>
    refine ⟨?_, ?_⟩
    · intro r rst heq st2
      simp only [transform_rfields, Option.some.injEq, Prod.mk.injEq] at heq
      obtain ⟨rfl, rfl⟩ := heq
      simp [transform_rfields]
    · intro hwf
      simp [transform_rfields]
  | case136 f fs st r1 s1 h1 r2 s2 h2 i1 i2 =>
    refine ⟨?_, ?_⟩
    · intro r rst heq st2
      simp [transform_rfields, h1, h2] at heq
      obtain ⟨rfl, rfl⟩ := heq
      have H1 := i1.1 _ _ h1 st2
      have H2 := i2.1 _ _ h2 st2
      simp [transform_rfields, H1, H2]
    · intro hwf
      simp [transform_rfields, h1, h2]
  | case137 f fs st r1 s1 h1 h2 i1 i2 =>
    refine ⟨?_, ?_⟩
    · intro r rst heq st2
      simp [transform_rfields, h1, h2] at heq
    · intro hwf
      simp only [wf_rfields, Bool.and_eq_true] at hwf
      obtain ⟨-, hw2⟩ := hwf
      have hx := i2.2 hw2
      rw [h2] at hx
      simp at hx
  | case138 f fs st h1 i1 =>
    refine ⟨?_, ?_⟩
    · intro r rst heq st2
      simp [transform_rfields, h1] at heq
    · intro hwf
      simp only [wf_rfields, Bool.and_eq_true] at hwf
      obtain ⟨hw1, -⟩ := hwf
      have hx := i1.2 hw1
      rw [h1] at hx
      simp at hx
  | case139 st =>
    refine ⟨?_, ?_⟩
    · intro r rst heq st2
      simp only [transform_rfnameds, Option.some.injEq, Prod.mk.injEq] at heq
      obtain ⟨rfl, rfl⟩ := heq
      simp [transform_rfnameds]
    · intro hwf
      simp [transform_rfnameds]
  | case140 f fs st r1 s1 h1 r2 s2 h2 i1 i2 =>
    refine ⟨?_, ?_⟩
    · intro r rst heq st2
      simp [transform_rfnameds, h1, h2] at heq
      obtain ⟨rfl, rfl⟩ := heq
      have H1 := i1.1 _ _ h1 st2
      have H2 := i2.1 _ _ h2 st2
      simp [transform_rfnameds, H1, H2]
    · intro hwf
      simp [transform_rfnameds, h1, h2]
  | case141 f fs st r1 s1 h1 h2 i1 i2 =>
    refine ⟨?_, ?_⟩
    · intro r rst heq st2
      simp [transform_rfnameds, h1, h2] at heq
    · intro hwf
      simp only [wf_rfnameds, Bool.and_eq_true] at hwf
      obtain ⟨-, hw2⟩ := hwf
      have hx := i2.2 hw2
      rw [h2] at hx
      simp at hx
  | case142 f fs st h1 i1 =>
    refine ⟨?_, ?_⟩
    · intro r rst heq st2
      simp [transform_rfnameds, h1] at heq
    · intro hwf
      simp only [wf_rfnameds, Bool.and_eq_true] at hwf
      obtain ⟨hw1, -⟩ := hwf
      have hx := i1.2 hw1
      rw [h1] at hx
      simp at hx
  | case143 st =>
    refine ⟨?_, ?_⟩
    · intro r rst heq st2
      simp only [transform_kvs, Option.some.injEq, Prod.mk.injEq] at heq
      obtain ⟨rfl, rfl⟩ := heq
      simp [transform_kvs]
    · intro hwf
      simp [transform_kvs]
  | case144 kv kvs st r1 s1 h1 r2 s2 h2 i1 i2 =>
    refine ⟨?_, ?_⟩
    · intro r rst heq st2
      simp [transform_kvs, h1, h2] at heq
      obtain ⟨rfl, rfl⟩ := heq
      have H1 := i1.1 _ _ h1 st2
      have H2 := i2.1 _ _ h2 st2
      simp [transform_kvs, H1, H2]
    · intro hwf
      simp [transform_kvs, h1, h2]
  | case145 kv kvs st r1 s1 h1 h2 i1 i2 =>
    refine ⟨?_, ?_⟩
    · intro r rst heq st2
      simp [transform_kvs, h1, h2] at heq
    · intro hwf
      simp only [wf_kvs, Bool.and_eq_true] at hwf
      obtain ⟨-, hw2⟩ := hwf
      have hx := i2.2 hw2
      rw [h2] at hx
      simp at hx
  | case146 kv kvs st h1 i1 =>
    refine ⟨?_, ?_⟩
    · intro r rst heq st2
      simp [transform_kvs, h1] at heq
    · intro hwf
      simp only [wf_kvs, Bool.and_eq_true] at hwf
      obtain ⟨hw1, -⟩ := hwf
      have hx := i1.2 hw1
      rw [h1] at hx
      simp at hx
  | case147 st =>
    refine ⟨?_, ?_⟩
    · intro r rst heq st2
      simp only [transform_oexpr, Option.some.injEq, Prod.mk.injEq] at heq
      obtain ⟨rfl, rfl⟩ := heq
      simp [transform_oexpr]
    · intro hwf
      simp [transform_oexpr]
  | case148 e st r1 s1 h1 i1 =>
    refine ⟨?_, ?_⟩
    · intro r rst heq st2
      simp [transform_oexpr, h1] at heq
      obtain ⟨rfl, rfl⟩ := heq
      have H1 := i1.1 _ _ h1 st2
      simp [transform_oexpr, H1]
    · intro hwf
      simp [transform_oexpr, h1]
  | case149 e st h1 i1 =>
    refine ⟨?_, ?_⟩
    · intro r rst heq st2
      simp [transform_oexpr, h1] at heq
    · intro hwf
      simp only [wf_oexpr] at hwf
      have hx := i1.2 hwf
      rw [h1] at hx
      simp at hx
  | case150 k v st r1 s1 h1 r2 s2 h2 i1 i2 =>
    refine ⟨?_, ?_⟩
    · intro r rst heq st2
      simp [transform_kv, h1, h2] at heq
      obtain ⟨rfl, rfl⟩ := heq
      have H1 := i1.1 _ _ h1 st2
      have H2 := i2.1 _ _ h2 st2
      simp [transform_kv, H1, H2]
    · intro hwf
      simp [transform_kv, h1, h2]
  | case151 k v st r1 s1 h1 h2 i1 i2 =>
    refine ⟨?_, ?_⟩
    · intro r rst heq st2
      simp [transform_kv, h1, h2] at heq
    · intro hwf
      simp only [wf_kv, Bool.and_eq_true] at hwf
      obtain ⟨-, hw2⟩ := hwf
      have hx := i2.2 hw2
      rw [h2] at hx
      simp at hx
  | case152 k v st h1 i1 =>
    refine ⟨?_, ?_⟩
    · intro r rst heq st2
      simp [transform_kv, h1] at heq
    · intro hwf
      simp only [wf_kv, Bool.and_eq_true] at hwf
      obtain ⟨hw1, -⟩ := hwf
      have hx := i1.2 hw1
      rw [h1] at hx
      simp at hx

/-- Fixed-point property for clause lists, transported through the `If`
node of the main walk lemma. -/
theorem transform_clauses_fix (cls : List Clause) (st : Nat)
    (cls' : List Clause) (st' : Nat)
    (h : transform_clauses cls st = some (cls', st')) :
    ∀ st2, transform_clauses cls' st2 = some (cls', st2) := by
  intro st2
  have hIf : transform_expr (Expr.If 0 cls) st = some (Expr.If 0 cls', st') := by
    simp [transform_expr, h]
  have hfix := (transform_main (Expr.If 0 cls) st).1 _ _ hIf st2
  cases hc : transform_clauses cls' st2 with
  | none => simp [transform_expr, hc] at hfix
  | some p =>
    obtain ⟨cls'', st''⟩ := p
    simp [transform_expr, hc] at hfix
    simp [hc, hfix.1, hfix.2]

/-- Totality for clause lists on well-formed input. -/
theorem transform_clauses_tot (cls : List Clause) (st : Nat)
    (hwf : wf_clauses cls = true) :
    (transform_clauses cls st).isSome = true := by
  have h := (transform_main (Expr.If 0 cls) st).2 (by simpa [wf_expr] using hwf)
  cases hc : transform_clauses cls st with
  | none => simp [transform_expr, hc] at h
  | some p => simp

/-- Fixed-point property for a top-level form. -/
theorem transform_form_fix (f f' : ExternalForm) (st st' : Nat)
    (h : transform_form f st = some (f', st')) :
    ∀ st2, transform_form f' st2 = some (f', st2) := by
  cases f with
  | FunDecl id clauses =>
    cases hc : transform_clauses clauses st with
    | none => simp [transform_form, hc] at h
    | some p =>
      obtain ⟨cls', st''⟩ := p
      simp [transform_form, hc] at h
      obtain ⟨rfl, rfl⟩ := h
      intro st2
      simp [transform_form, transform_clauses_fix clauses st cls' st'' hc st2]
  | OtherForm tag =>
    simp [transform_form] at h
    obtain ⟨rfl, rfl⟩ := h
    intro st2
    simp [transform_form]

/-- Totality for a top-level form on well-formed input. -/
theorem transform_form_tot (f : ExternalForm) (st : Nat)
    (hwf : wf_form f = true) : (transform_form f st).isSome = true := by
  cases f with
  | FunDecl id clauses =>
    simp only [wf_form] at hwf
    have h := transform_clauses_tot clauses st hwf
    cases hc : transform_clauses clauses st with
    | none => rw [hc] at h; simp at h
    | some p => simp [transform_form, hc]
  | OtherForm tag => simp [transform_form]

/-- Fixed-point property for form lists. -/
theorem transform_forms_fix : ∀ (fs : List ExternalForm) (st : Nat)
    (fs' : List ExternalForm) (st' : Nat),
    transform_forms fs st = some (fs', st') →
    ∀ st2, transform_forms fs' st2 = some (fs', st2) := by
  intro fs
  induction fs with
  | nil =>
    intro st fs' st' h st2
    simp [transform_forms] at h
    obtain ⟨rfl, rfl⟩ := h
    simp [transform_forms]
  | cons f fs ih =>
    intro st fs' st' h st2
    cases hf : transform_form f st with
    | none => simp [transform_forms, hf] at h
    | some p =>
      obtain ⟨f1, s1⟩ := p
      cases hfs : transform_forms fs s1 with
      | none => simp [transform_forms, hf, hfs] at h
      | some q =>
        obtain ⟨fs1, s2⟩ := q
        simp [transform_forms, hf, hfs] at h
        obtain ⟨rfl, rfl⟩ := h
        simp [transform_forms, transform_form_fix f f1 st s1 hf st2,
          ih s1 fs1 s2 hfs st2]

/-- Totality for form lists on well-formed input. -/
theorem transform_forms_tot : ∀ (fs : List ExternalForm) (st : Nat),
    wf_ast fs = true → (transform_forms fs st).isSome = true := by
  intro fs
  induction fs with
  | nil => intro st hwf; simp [transform_forms]
  | cons f fs ih =>
    intro st hwf
    simp only [wf_ast, Bool.and_eq_true] at hwf
    have hf := transform_form_tot f st hwf.1
    cases hc : transform_form f st with
    | none => rw [hc] at hf; simp at hf
    | some p =>
      obtain ⟨f1, s1⟩ := p
      have hfs := ih s1 hwf.2
      cases hc2 : transform_forms fs s1 with
      | none => rw [hc2] at hfs; simp at hfs
      | some q => simp [transform_forms, hc, hc2]

/-- C7: `preprocess` is idempotent on its own output: for every AST `a`,
running `preprocess` on the result of `preprocess a` (when the first run
does not panic) returns that result unchanged; in particular an
already-rewritten two-clause lambda argument of `lists:partition` is left
unchanged by a second pass.  Stated with `Option.bind` so that a panicking
first pass makes both sides `none`. -/
theorem preprocess_idempotent : ∀ a : AST,
    (preprocess a).bind preprocess = preprocess a := by
  intro a
  cases h : transform_forms a 0 with
  | none => simp [preprocess, h]
  | some p =>
    obtain ⟨a', st'⟩ := p
    have h2 := transform_forms_fix a 0 a' st' h 0
    simp [preprocess, h, h2]

/-- C4, amended: `preprocess` acts as the identity on unrecognized shapes
and returns an AST without failing on every input AST in which each remote
call to `lists:partition` with declared arity 2 has an argument list of
length exactly 2; on an AST violating that invariant the
`args.try_into().unwrap()` in `transform_expr` panics. -/
theorem preprocess_total_on_wf : ∀ a : AST, wf_ast a = true →
    (preprocess a).isSome = true := by
  intro a hwf
  have h := transform_forms_tot a 0 hwf
  cases hc : transform_forms a 0 with
  | none => rw [hc] at h; simp at h
  | some p => simp [preprocess, hc]

/-- C4, counterexample: on an AST containing a remote call to
`lists:partition` with declared arity 2 and an empty argument list,
`preprocess` panics (modelled as `none`) instead of returning an AST, so
`preprocess` is not total. -/
theorem preprocess_panics_on_malformed_partition_call :
    preprocess bad_ast = none ∧ wf_ast bad_ast = false := ⟨rfl, rfl⟩

/-- C4, witness: the well-formedness hypothesis discharged on a concrete
AST containing a well-formed `lists:partition/2` call. -/
theorem preprocess_total_on_wf_witness :
    wf_ast good_ast = true ∧ (preprocess good_ast).isSome = true :=
  ⟨rfl, preprocess_total_on_wf good_ast rfl⟩

end Elp
